import Mathlib

/-!
# Verification of the Mr. Bean 3D game world-simulation core

Shallow embedding of the runtime logic of `src/main.js`: the player
movement/collision resolver, the scene collider registry, the main-cast NPC
wander AI, the dialogue reply tables, the NPC interaction freeze, and the
challenge (quest) state machine.  Numeric state is modelled over `ℚ`; where
the source uses trigonometry (`Math.cos`, `Math.sin`, `Math.atan2`) the
functions are abstracted as arbitrary parameters, since the properties proved
hold for any values they return.
-/

namespace BeanGame

/-! ## Vectors and axis-aligned boxes (THREE.Vector3 / THREE.Box3) -/

/-- A 3D point with rational coordinates (stands for a `THREE.Vector3`). -/
structure Vec3 where
  x : ℚ
  y : ℚ
  z : ℚ
deriving DecidableEq, Repr

/-- Componentwise addition, as `Vector3.add`. -/
def Vec3.add (a b : Vec3) : Vec3 :=
  ⟨a.x + b.x, a.y + b.y, a.z + b.z⟩

/-- An axis-aligned box given by its two corners (stands for a `THREE.Box3`). -/
structure Box3 where
  min : Vec3
  max : Vec3
deriving DecidableEq, Repr

/-- `Box3.translate(offset)`: move both corners by `v`. -/
def Box3.translate (b : Box3) (v : Vec3) : Box3 :=
  ⟨b.min.add v, b.max.add v⟩

/-- `Box3.intersectsBox(box)` from three.js: the boxes are disjoint exactly when
they are separated along some axis with a strict inequality, so touching boxes
count as intersecting. -/
def Box3.intersectsBox (a b : Box3) : Bool :=
  !(b.max.x < a.min.x || b.min.x > a.max.x ||
    b.max.y < a.min.y || b.min.y > a.max.y ||
    b.max.z < a.min.z || b.min.z > a.max.z)

/-- `Box3.setFromCenterAndSize(center, size)`: corners at `center ± size / 2`. -/
def Box3.setFromCenterAndSize (center size : Vec3) : Box3 :=
  ⟨⟨center.x - size.x / 2, center.y - size.y / 2, center.z - size.z / 2⟩,
   ⟨center.x + size.x / 2, center.y + size.y / 2, center.z + size.z / 2⟩⟩

/-! ## The collider registry

A world object, as the collision code in `updatePlayer` sees it: its
`position` field (which in three.js is *relative to its parent*, here
`localPos`), the position of its parent group in the scene (`parentPos`,
`(0,0,0)` for objects added directly to the scene), the optional `collider`
box stored on it at construction time, and the `isStore` / `isBench` /
`isDepartmentStore` flags the source reads. -/
structure SceneObj where
  localPos : Vec3
  parentPos : Vec3
  collider : Option Box3
  /-- The collider box relative to the owner's own origin (for the benches and
  trees the construction code stores the collider with the owner's park-local
  position already added, so `collider` and `localBox` differ there). -/
  localBox : Option Box3
  isStore : Bool
  isBench : Bool
  isDepartmentStore : Bool
deriving DecidableEq, Repr

/-- The box `updatePlayer` tests against: the stored collider translated by the
owner's `position` field, i.e. by its parent-relative position.  Both collision
loops in `updatePlayer` compute exactly this
(`store.collider.clone().translate(store.position)` and
`object.collider.clone().translate(object.position)`). -/
def SceneObj.queryBox (o : SceneObj) : Option Box3 :=
  o.collider.map (fun b => b.translate o.localPos)

/-- The owner's true world-space position: parent group position plus the
object's position inside the group. -/
def SceneObj.worldPos (o : SceneObj) : Vec3 :=
  o.parentPos.add o.localPos

/-- The collider resolved to world space as the spec defines it: the owner's
origin-relative box translated by the owner's current world position.  Compare
with `SceneObj.queryBox`, which is what the code computes. -/
def SceneObj.worldBox (o : SceneObj) : Option Box3 :=
  o.localBox.map (fun b => b.translate o.worldPos)

/-- Whether the box the query computes for `o` intersects `pBox`. -/
def SceneObj.queryHits (o : SceneObj) (pBox : Box3) : Bool :=
  match o.queryBox with
  | some b => b.intersectsBox pBox
  | none => false

/-! ## The movement & collision resolver (`updatePlayer`) -/

/-- The fixed player footprint `new THREE.Vector3(0.4, 1.8, 0.4)`. -/
def playerSize : Vec3 :=
  ⟨4/10, 18/10, 4/10⟩

/-- `playerBox.setFromCenterAndSize(nextPosition, playerSize)`. -/
def playerFootprint (center : Vec3) : Box3 :=
  Box3.setFromCenterAndSize center playerSize

/-- The collision scan of `updatePlayer`: `canMove` is cleared as soon as any
registered collider's query box intersects the candidate footprint (both the
`stores` loop and the `scene.traverse` loop translate the collider by the
owner's `position` field, so they are folded into one scan here). -/
def blocked (objs : List SceneObj) (pBox : Box3) : Bool :=
  objs.any (fun o => o.queryHits pBox)

/-- `Math.max(-95, Math.min(95, c))`: the world-boundary clamp. -/
def clamp95 (c : ℚ) : ℚ :=
  max (-95) (min 95 c)

/-- One tick of `updatePlayer`, taking the already world-rotated velocity as
input: compute the candidate position, reject the whole move if any collider's
query box intersects the candidate footprint, then clamp x and z to `±95`. -/
def updatePlayer (objs : List SceneObj) (pos velocity : Vec3) : Vec3 :=
  let next := pos.add velocity
  let pBox := playerFootprint next
  let pos1 := if blocked objs pBox then pos else next
  ⟨clamp95 pos1.x, pos1.y, clamp95 pos1.z⟩

/-! ## The static scene, as `createCity` builds it

Group positions: `arbourRoad` at `(-40, 0, -30)`, `park` at `(0, 0, 30)`;
the three `createStore` results are added directly to the scene. -/

/-- `arbourRoad.position.set(-40, 0, -30)`. -/
def arbourRoadPos : Vec3 := ⟨-40, 0, -30⟩

/-- `park.position.set(0, 0, 30)`. -/
def parkPos : Vec3 := ⟨0, 0, 30⟩

/-- The house collider from `createBritishHouse`:
`Box3(Vector3(-3, 0, -3), Vector3(3, 8, 3))`. -/
def houseCollider : Box3 :=
  ⟨⟨-3, 0, -3⟩, ⟨3, 8, 3⟩⟩

/-- The x coordinates of the five houses inside the Arbour Road group:
Mr. Bean's house at 0, the Bruiser house at 8, and the loop houses at
`i * 8` for `i ∈ {-2, -1, 2}`. -/
def houseLocalXs : List ℚ :=
  [0, 8, -16, -8, 16]

/-- The Arbour Road houses, nested one group deep. -/
def houses : List SceneObj :=
  houseLocalXs.map (fun hx =>
    { localPos := ⟨hx, 0, 0⟩, parentPos := arbourRoadPos,
      collider := some houseCollider, localBox := some houseCollider,
      isStore := false, isBench := false, isDepartmentStore := false })

/-- The bench collider box relative to the bench origin,
`Vector3(-1, 0, -0.3)` to `Vector3(1, 0.8, 0.3)`. -/
def benchLocalBox : Box3 :=
  ⟨⟨-1, 0, -3/10⟩, ⟨1, 8/10, 3/10⟩⟩

/-- `benchPositions` from `createPark`. -/
def benchPositions : List Vec3 :=
  [⟨-15, 0, -15⟩, ⟨15, 0, -15⟩, ⟨-15, 0, 15⟩, ⟨15, 0, 15⟩,
   ⟨0, 0, 0⟩, ⟨-15, 0, 0⟩, ⟨15, 0, 0⟩, ⟨0, 0, -15⟩, ⟨0, 0, 15⟩]

/-- The park benches.  `createPark` stores the collider *already translated* by
the bench's park-local position (`new Box3(min.add(pos), max.add(pos))`), and
also sets `bench.position` to that same position; no construction code ever
sets an `isBench` flag. -/
def benches : List SceneObj :=
  benchPositions.map (fun p =>
    { localPos := p, parentPos := parkPos,
      collider := some (benchLocalBox.translate p), localBox := some benchLocalBox,
      isStore := false, isBench := false, isDepartmentStore := false })

/-- The tree collider from `createTree`:
`Box3(Vector3(-0.4, 0, -0.4), Vector3(0.4, 3, 0.4))`. -/
def treeCollider : Box3 :=
  ⟨⟨-4/10, 0, -4/10⟩, ⟨4/10, 3, 4/10⟩⟩

/-- The park trees at the randomly drawn park-local positions `ps` (each
coordinate is `(Math.random() - 0.5) * 35`, hence in `(-17.5, 17.5)`).
`createPark` calls `tree.collider.translate(position)` after setting
`tree.position`, so the stored collider already contains the local offset. -/
def trees (ps : List Vec3) : List SceneObj :=
  ps.map (fun p =>
    { localPos := p, parentPos := parkPos,
      collider := some (treeCollider.translate p), localBox := some treeCollider,
      isStore := false, isBench := false, isDepartmentStore := false })

/-- The store collider from `createStore` (`width = depth = 8`, `height = 4`):
`Box3(Vector3(-4, 0, -4), Vector3(4, 4, 4))`. -/
def storeCollider : Box3 :=
  ⟨⟨-4, 0, -4⟩, ⟨4, 4, 4⟩⟩

/-- `storeConfigs` from `createCity`. -/
def storePositions : List Vec3 :=
  [⟨20, 0, -20⟩, ⟨-20, 0, 20⟩, ⟨20, 0, 20⟩]

/-- The three stores, added directly to the scene (parent position `(0,0,0)`),
flagged `isStore`. -/
def stores : List SceneObj :=
  storePositions.map (fun p =>
    { localPos := p, parentPos := ⟨0, 0, 0⟩,
      collider := some storeCollider, localBox := some storeCollider,
      isStore := true, isBench := false, isDepartmentStore := false })

/-- The department store (`createDepartmentStore`) at `(30, 0, -30)`: flagged
`isDepartmentStore` and carrying no collider. -/
def departmentStore : SceneObj :=
  { localPos := ⟨30, 0, -30⟩, parentPos := ⟨0, 0, 0⟩,
    collider := none, localBox := none,
    isStore := false, isBench := false, isDepartmentStore := true }

/-- All collider-relevant world objects, with the 15 park-tree positions as a
parameter (they are drawn from `Math.random()` at build time). -/
def sceneObjects (treePs : List Vec3) : List SceneObj :=
  stores ++ [departmentStore] ++ houses ++ benches ++ trees treePs

/-- Mr. Bean's house (`createBritishHouse(true)` at local `(0,0,0)` inside the
Arbour Road group). -/
def beanHouse : SceneObj :=
  { localPos := ⟨0, 0, 0⟩, parentPos := arbourRoadPos,
    collider := some houseCollider, localBox := some houseCollider,
    isStore := false, isBench := false, isDepartmentStore := false }

/-- A scene instance whose 15 tree draws all landed at the park origin
(each `Math.random()` draw being `0.5`). -/
def sceneSample : List SceneObj :=
  sceneObjects (List.replicate 15 ⟨0, 0, 0⟩)

/-- The first park bench, at park-local position `(-15, 0, -15)`. -/
def benchSample : SceneObj :=
  { localPos := ⟨-15, 0, -15⟩, parentPos := parkPos,
    collider := some (benchLocalBox.translate ⟨-15, 0, -15⟩),
    localBox := some benchLocalBox,
    isStore := false, isBench := false, isDepartmentStore := false }

/-! ## The challenge state machine

`initializeChallenges`, `startChallenge`, `updateChallengeProgress`,
`completeChallenge` and `checkChallengeProgress` from `src/main.js`.  A
challenge's step texts play no role in the control flow, so a step is
represented by its `completed` flag alone.  The JS code holds a *reference*
`this.activeChallenge` into the `this.challenges` array and mutates the shared
object; here the state holds the active challenge's id (ids are distinct and
never change) and every mutation rewrites the challenge with that id in the
list.  `showDialog` calls are recorded as `(speaker, text)` pairs appended to a
dialog log. -/

/-- One challenge: id, texts, overall `completed` flag and the `completed`
flags of its ordered steps. -/
structure Challenge where
  id : Nat
  title : String
  description : String
  reward : String
  completed : Bool
  steps : List Bool
deriving DecidableEq, Repr

/-- The challenge-system state: the challenge catalog, the id of the active
challenge (`this.activeChallenge`, `none` for `null`), and the log of surfaced
dialogs. -/
structure GameState where
  challenges : List Challenge
  activeId : Option Nat
  dialogLog : List (String × String)
deriving DecidableEq, Repr

/-- `this.challenges.find(c => c.id === challengeId)`. -/
def findChallenge (s : GameState) (id : Nat) : Option Challenge :=
  s.challenges.find? (fun c => c.id == id)

/-- Rewrite the challenge carrying `id` (mutation of the shared object in JS). -/
def mapChallengeById (cs : List Challenge) (id : Nat) (f : Challenge → Challenge) :
    List Challenge :=
  cs.map (fun c => if c.id == id then f c else c)

/-- Append one surfaced dialog to the log. -/
def pushDialog (s : GameState) (speaker text : String) : GameState :=
  { s with dialogLog := s.dialogLog ++ [(speaker, text)] }

/-- The generic completion text `updateChallengeProgress` surfaces. -/
def wellDoneText : String := "Well done! You\'ve completed the challenge!"

/-- The text surfaced when starting an already completed challenge. -/
def alreadyCompletedText : String := "You\'ve already completed this challenge!"

/-- Overwrite a challenge's step flags (the step mutation of
`updateChallengeProgress`). -/
def setStepsF (steps1 : List Bool) (c : Challenge) : Challenge :=
  { c with steps := steps1 }

/-- Overwrite the step flags and mark the challenge completed (the
all-steps-completed mutation of `updateChallengeProgress`). -/
def completeStepsF (steps1 : List Bool) (c : Challenge) : Challenge :=
  { c with steps := steps1, completed := true }

/-- Mark a challenge completed (the mutation of `completeChallenge`). -/
def completeF (c : Challenge) : Challenge :=
  { c with completed := true }

/-- Reset every step flag (`steps.forEach(step => step.completed = false)`
in `startChallenge`). -/
def resetStepsF (c : Challenge) : Challenge :=
  { c with steps := c.steps.map (fun _ => false) }

/-- `updateChallengeProgress(stepIndex)`: if a challenge is active and its
step `stepIndex` is not yet completed, mark it completed; if that makes every
step completed, mark the challenge completed, surface the generic completion
dialog and clear the active reference.  (An out-of-range index is a no-op
here; the source would throw, but every call site passes an in-range index.) -/
def updateChallengeProgress (s : GameState) (i : Nat) : GameState :=
  match s.activeId with
  | none => s
  | some aid =>
    match findChallenge s aid with
    | none => s
    | some c =>
      if i < c.steps.length && !(c.steps.getD i false) then
        let steps1 := c.steps.set i true
        if steps1.all (fun b => b) then
          let cs1 := mapChallengeById s.challenges aid (completeStepsF steps1)
          let s2 := pushDialog { s with challenges := cs1 } "Challenge Complete!" wellDoneText
          { s2 with activeId := none }
        else
          { s with challenges := mapChallengeById s.challenges aid (setStepsF steps1) }
      else s

/-- `completeChallenge()`: no-op without an active challenge; otherwise
surface the active challenge's reward, mark it completed and clear the active
reference. -/
def completeChallenge (s : GameState) : GameState :=
  match s.activeId with
  | none => s
  | some aid =>
    match findChallenge s aid with
    | none => s
    | some c =>
      let s1 := pushDialog s "Challenge Complete!" c.reward
      { s1 with challenges := mapChallengeById s1.challenges aid completeF, activeId := none }

/-- `startChallenge(challengeId)`: a found, not-completed challenge becomes
active (resetting the step flags of a different previously active challenge)
and its description is surfaced; a found, completed challenge only surfaces
the already-completed dialog. -/
def startChallenge (s : GameState) (id : Nat) : GameState :=
  match findChallenge s id with
  | none => s
  | some c =>
    if c.completed then
      pushDialog s "Challenge Complete" alreadyCompletedText
    else
      let s1 :=
        match s.activeId with
        | some aid =>
          if aid = id then s
          else { s with challenges := mapChallengeById s.challenges aid resetStepsF }
        | none => s
      pushDialog { s1 with activeId := some id } "New Challenge" c.description

/-- The inputs `checkChallengeProgress` reads besides the challenge state: the
interacted NPC's `userData.name` (`none` for the background NPCs, whose
default `userData` has no `name`), and the world-proximity tests it performs
(`isBench` object within 2 of the player, `isDepartmentStore` object within 5,
player within 2 of the car at `(-38, 0, -28)`, player within 10 of the city
center `(30, 0, -30)`). -/
structure TalkEvent where
  npcName : Option String
  nearBench : Bool
  nearDeptStore : Bool
  nearCar : Bool
  inCityCenter : Bool
deriving DecidableEq, Repr

/-- `checkChallengeProgress(npc)`: the per-challenge step-advancement
predicates, evaluated against the active challenge only, as the `switch` on
`challenge.id` with its `if / else if` chains. -/
def checkChallengeProgress (s : GameState) (ev : TalkEvent) : GameState :=
  match s.activeId with
  | none => s
  | some aid =>
    match findChallenge s aid with
    | none => s
    | some c =>
      if c.id = 1 then
        if ev.npcName = some "Mrs. Wicket" && !(c.steps.getD 0 false) then
          updateChallengeProgress s 0
        else if c.steps.getD 0 false && !(c.steps.getD 1 false) then
          if ev.nearBench then
            pushDialog (updateChallengeProgress s 1) "Mr. Bean"
              "Aha! There\'s a note here... \'Your Teddy is at the department store.\'"
          else s
        else if c.steps.getD 1 false && !(c.steps.getD 2 false) then
          if ev.nearDeptStore then completeChallenge (updateChallengeProgress s 2)
          else s
        else s
      else if c.id = 2 then
        if !(c.steps.getD 0 false) then
          if ev.nearCar then
            pushDialog (updateChallengeProgress s 0) "Mr. Bean"
              "Oh no! The car won\'t start! Maybe Rupert can help..."
          else s
        else if ev.npcName = some "Rupert" && !(c.steps.getD 1 false) then
          pushDialog (updateChallengeProgress s 1) "Rupert"
            "*Sigh* Fine, Bean. The clinic is in the city center, near the department store."
        else if c.steps.getD 1 false && !(c.steps.getD 2 false) then
          if ev.inCityCenter then completeChallenge (updateChallengeProgress s 2)
          else s
        else s
      else if c.id = 3 then
        if ev.npcName = some "Irma Gobb" && !(c.steps.getD 0 false) then
          pushDialog (updateChallengeProgress s 0) "Irma"
            "Oh, Mr. Bean! I do love that teddy bear in the department store window..."
        else if c.steps.getD 0 false && !(c.steps.getD 1 false) then
          if ev.nearDeptStore then
            pushDialog (updateChallengeProgress s 1) "Store Clerk"
              "The teddy bears are on sale today! Perfect timing!"
          else s
        else if c.steps.getD 1 false && !(c.steps.getD 2 false) then
          if ev.npcName = some "Store Clerk" then
            completeChallenge (updateChallengeProgress s 2)
          else s
        else s
      else s

/-- The two entry points that drive the challenge state: the UI's
`startChallenge(id)` click handler and the interaction handler's
`checkChallengeProgress(npc)` call (`updateChallengeProgress` and
`completeChallenge` are only ever called from these). -/
inductive ChallengeAction where
  | start (id : Nat)
  | talk (ev : TalkEvent)
deriving DecidableEq, Repr

/-- Apply one action to the challenge state. -/
def stepChallengeAction (s : GameState) : ChallengeAction → GameState
  | .start id => startChallenge s id
  | .talk ev => checkChallengeProgress s ev

/-- Run a sequence of actions. -/
def runChallengeActions (s : GameState) (acts : List ChallengeAction) : GameState :=
  acts.foldl stepChallengeAction s

/-- The challenge catalog from `initializeChallenges` (texts as in the source,
steps all incomplete). -/
def initChallenges : List Challenge :=
  [ { id := 1, title := "Find Teddy",
      description := "Your beloved Teddy has gone missing! Mrs. Wicket might have seen it last.",
      reward := "You found Teddy! He\'s happy to be back with you.",
      completed := false, steps := [false, false, false] },
    { id := 2, title := "Late for Appointment",
      description := "You\'re late for your dentist appointment! But your car won\'t start...",
      reward := "You made it to the dentist! Only 30 minutes late...",
      completed := false, steps := [false, false, false] },
    { id := 3, title := "Christmas Shopping",
      description := "You need to buy a Christmas present for Irma, but you\'re on a budget!",
      reward := "You found a lovely gift that Irma will surely appreciate!",
      completed := false, steps := [false, false, false] } ]

/-- The initial challenge-system state: catalog loaded, no active challenge. -/
def initGameState : GameState :=
  { challenges := initChallenges, activeId := none, dialogLog := [] }

/-! ### Step-ordering machinery -/

/-- The step flags are downward closed: a completed step is never preceded by
an incomplete one. -/
def stepsOrdered : List Bool → Bool
  | x :: y :: t => (!y || x) && stepsOrdered (y :: t)
  | _ => true

/-- Every challenge in the list has downward-closed step flags. -/
def orderedCs (cs : List Challenge) : Bool :=
  cs.all (fun c => stepsOrdered c.steps)

/-! ### The events the real game can deliver (claim C10)

`checkChallengeProgress` is called only from the interaction handler, with the
closest NPC.  The NPCs the game creates are the three main characters of
`setupNPCs` plus the ten background NPCs, whose default `userData` carries no
`name`; no NPC named "Store Clerk" is ever created.  The bench proximity test
filters `scene.children` for objects with an `isBench` flag, which no
construction code ever sets. -/

/-- The identities an interacted NPC can have in the built game. -/
inductive NPCId where
  | mrsWicket
  | irmaGobb
  | rupert
  | background
deriving DecidableEq, Repr

/-- `npc.userData.name` for each NPC the game creates. -/
def NPCId.name? : NPCId → Option String
  | .mrsWicket => some "Mrs. Wicket"
  | .irmaGobb => some "Irma Gobb"
  | .rupert => some "Rupert"
  | .background => none

/-- Whether any scene object carries an `isBench` flag. -/
def sceneHasBenchFlag (objs : List SceneObj) : Bool :=
  objs.any (fun o => o.isBench)

/-- An interaction event as the built game can produce it: an NPC identity plus
the raw proximity outcomes.  `benchWithin2` says whether a bench is within 2
units of the player; the event's `nearBench` input additionally requires some
scene object to carry the `isBench` flag. -/
structure WorldEvent where
  npc : NPCId
  benchWithin2 : Bool
  nearDeptStore : Bool
  nearCar : Bool
  inCityCenter : Bool
deriving DecidableEq, Repr

/-- The `TalkEvent` the handler derives from a world event in the scene with
tree positions `treePs`. -/
def WorldEvent.toTalkEvent (treePs : List Vec3) (e : WorldEvent) : TalkEvent :=
  { npcName := e.npc.name?,
    nearBench := sceneHasBenchFlag (sceneObjects treePs) && e.benchWithin2,
    nearDeptStore := e.nearDeptStore,
    nearCar := e.nearCar,
    inCityCenter := e.inCityCenter }

/-- An action as the built game can deliver it. -/
inductive WorldAction where
  | start (id : Nat)
  | talk (e : WorldEvent)
deriving DecidableEq, Repr

/-- Interpret a world action over the scene with tree positions `treePs`. -/
def WorldAction.toChallengeAction (treePs : List Vec3) :
    WorldAction → ChallengeAction
  | .start id => .start id
  | .talk e => .talk (e.toTalkEvent treePs)

/-- The part of the C10 invariant about challenge 1 ("Find Teddy"): three
steps, steps 1 and 2 incomplete, not completed. -/
def okC1 (c : Challenge) : Bool :=
  (c.steps.length == 3) && !(c.steps.getD 1 false) && !(c.steps.getD 2 false) &&
    !c.completed

/-- The part of the C10 invariant about challenge 3 ("Christmas Shopping"):
three steps, step 2 incomplete, not completed. -/
def okC3 (c : Challenge) : Bool :=
  (c.steps.length == 3) && !(c.steps.getD 2 false) && !c.completed

/-- The C10 invariant on a challenge catalog: the ids are 1, 2, 3 and
challenges 1 and 3 are stuck before their unreachable steps. -/
def stuckCs (cs : List Challenge) : Bool :=
  (cs.map (fun c => c.id) == [1, 2, 3]) &&
  (match cs.find? (fun c => c.id == 1) with
   | some c => okC1 c
   | none => false) &&
  (match cs.find? (fun c => c.id == 3) with
   | some c => okC3 c
   | none => false)

/-! ### Step completion and challenge completion (claim C6) -/

/-- The interaction event of standing by the broken car (no NPC name needed for
the step-0 check of challenge 2; the interacted NPC is a background citizen). -/
def carEvent : TalkEvent :=
  { npcName := none, nearBench := false, nearDeptStore := false,
    nearCar := true, inCityCenter := false }

/-- Talking to Rupert. -/
def rupertEvent : TalkEvent :=
  { npcName := some "Rupert", nearBench := false, nearDeptStore := false,
    nearCar := false, inCityCenter := false }

/-- An interaction in the city center. -/
def cityEvent : TalkEvent :=
  { npcName := none, nearBench := false, nearDeptStore := false,
    nearCar := false, inCityCenter := true }

/-- Completing all three steps of challenge 2 in order. -/
def completeC2Run : GameState :=
  runChallengeActions initGameState
    [.start 2, .talk carEvent, .talk rupertEvent, .talk cityEvent]

/-- Challenge 2 as initialized. -/
def challenge2Init : Challenge :=
  { id := 2, title := "Late for Appointment",
    description := "You\'re late for your dentist appointment! But your car won\'t start...",
    reward := "You made it to the dentist! Only 30 minutes late...",
    completed := false, steps := [false, false, false] }

/-- A state in which challenge 2 is active with its first two steps done. -/
def ucpWitnessState : GameState :=
  { challenges := mapChallengeById initChallenges 2 (setStepsF [true, true, false]),
    activeId := some 2, dialogLog := [] }

/-- A state in which no challenge is active and challenge 2 is completed. -/
def completedWitnessState : GameState :=
  { challenges := mapChallengeById initChallenges 2 completeF,
    activeId := none, dialogLog := [] }

/-- A state in which challenge 1 is active and untouched. -/
def startWitnessState : GameState :=
  { initGameState with activeId := some 1 }

/-! ### Free-text dialogue responses (claim C8) -/

/-- ASCII lowercasing of a string, as `message.toLowerCase()` acts on the
keyword alphabet used by the response functions. -/
def toLowerStr (s : String) : String := ⟨s.data.map Char.toLower⟩

/-- Does the character list `l` start with `p`? -/
def startsWithL : List Char → List Char → Bool
  | _, [] => true
  | [], _ :: _ => false
  | a :: as, b :: bs => (a == b) && startsWithL as bs

/-- Does `sub` occur as a contiguous run inside `l`?  (JS `String.includes`.) -/
def containsL : List Char → List Char → Bool
  | [], sub => startsWithL [] sub
  | a :: t, sub => startsWithL (a :: t) sub || containsL t sub

/-- `message.includes(sub)`. -/
def strIncludes (s sub : String) : Bool := containsL s.data sub.data

/-- `getMrsWicketResponse(message)`. -/
def getMrsWicketResponse (message : String) : String :=
  if strIncludes message "rent" then
    "Yes, yes, the rent! It\'s due on Friday, don\'t forget!"
  else if strIncludes message "cat" || strIncludes message "scrapper" then
    "Oh, have you seen my Scrapper? He\'s such a dear cat. Though he doesn\'t seem to like you much, Mr. Bean!"
  else if strIncludes message "noise" || strIncludes message "loud" then
    "The noise from your flat is absolutely dreadful! What are you doing up there?"
  else if strIncludes message "hello" || strIncludes message "hi" then
    "Good day, Mr. Bean. I hope you\'re not planning any of your usual shenanigans."
  else if strIncludes message "sorry" then
    "Well, just try to be more careful next time, Mr. Bean."
  else
    "Hmph! Just make sure you keep the noise down and pay your rent on time!"

/-- `getIrmaResponse(message)`. -/
def getIrmaResponse (message : String) : String :=
  if strIncludes message "date" then
    "Oh, Mr. Bean! I thought you\'d never ask. Shall we go to the restaurant?"
  else if strIncludes message "teddy" then
    "That teddy bear of yours... Sometimes I think you love it more than me!"
  else if strIncludes message "hello" || strIncludes message "hi" then
    "Hello, Mr. Bean! I was just thinking about you!"
  else if strIncludes message "gift" || strIncludes message "present" then
    "You remembered! Though last time you gave me a picture of yourself..."
  else if strIncludes message "love" then
    "Oh, Mr. Bean... *blushes* You\'re sweet when you want to be."
  else
    "We should go on another date soon, Mr. Bean!"

/-- `getRupertResponse(message)`. -/
def getRupertResponse (message : String) : String :=
  if strIncludes message "noise" then
    "You\'re making too much noise again, Bean! I\'m trying to get some peace and quiet!"
  else if strIncludes message "garden" then
    "Stay away from my garden, Bean! I saw what you did to my flowers last time!"
  else if strIncludes message "hello" || strIncludes message "hi" then
    "What do you want now, Bean?"
  else if strIncludes message "sorry" then
    "Hmph! You\'re always sorry after the fact, aren\'t you?"
  else
    "Just keep your distance, Bean. I\'m watching you!"

/-- `getGenericResponse(message)`. -/
def getGenericResponse (message : String) : String :=
  if strIncludes message "hello" || strIncludes message "hi" then
    "Hello! Lovely day, isn\'t it?"
  else if strIncludes message "weather" then
    "Yes, typical British weather we\'re having!"
  else if strIncludes message "bean" then
    "Oh, you know Mr. Bean? Quite a peculiar fellow, isn\'t he?"
  else if strIncludes message "shop" || strIncludes message "store" then
    "The shops around here are quite nice. Have you tried the new café?"
  else if strIncludes message "car" then
    "That green Mini is always causing chaos around here!"
  else
    "Oh, how interesting! Do tell me more about that."

/-- `handlePlayerMessage(message, npc)`: lowercase the message, then dispatch
on whether the NPC is a main-cast character and on its name. -/
def handlePlayerMessage (isMainNPC : Bool) (name message : String) : String :=
  let m := toLowerStr message
  if isMainNPC then
    if name == "Mrs. Wicket" then getMrsWicketResponse m
    else if name == "Irma Gobb" then getIrmaResponse m
    else if name == "Rupert" then getRupertResponse m
    else getGenericResponse m
  else getGenericResponse m

/-- The spec\'s view of a character\'s dialogue: an ordered keyword table, with
the first row whose keyword list matches winning, and a fallback. -/
def respondTable : List (List String × String) → String → String → String
  | [], fallback, _ => fallback
  | (kws, r) :: rest, fallback, m =>
    if kws.any (fun k => strIncludes m k) then r else respondTable rest fallback m

/-- Mrs. Wicket\'s ordered keyword table. -/
def mrsWicketTable : List (List String × String) :=
  [(["rent"], "Yes, yes, the rent! It\'s due on Friday, don\'t forget!"),
   (["cat", "scrapper"], "Oh, have you seen my Scrapper? He\'s such a dear cat. Though he doesn\'t seem to like you much, Mr. Bean!"),
   (["noise", "loud"], "The noise from your flat is absolutely dreadful! What are you doing up there?"),
   (["hello", "hi"], "Good day, Mr. Bean. I hope you\'re not planning any of your usual shenanigans."),
   (["sorry"], "Well, just try to be more careful next time, Mr. Bean.")]

/-- Mrs. Wicket\'s fallback response. -/
def mrsWicketFallback : String :=
  "Hmph! Just make sure you keep the noise down and pay your rent on time!"

/-- Irma Gobb\'s ordered keyword table. -/
def irmaTable : List (List String × String) :=
  [(["date"], "Oh, Mr. Bean! I thought you\'d never ask. Shall we go to the restaurant?"),
   (["teddy"], "That teddy bear of yours... Sometimes I think you love it more than me!"),
   (["hello", "hi"], "Hello, Mr. Bean! I was just thinking about you!"),
   (["gift", "present"], "You remembered! Though last time you gave me a picture of yourself..."),
   (["love"], "Oh, Mr. Bean... *blushes* You\'re sweet when you want to be.")]

/-- Irma Gobb\'s fallback response. -/
def irmaFallback : String := "We should go on another date soon, Mr. Bean!"

/-- Rupert\'s ordered keyword table. -/
def rupertTable : List (List String × String) :=
  [(["noise"], "You\'re making too much noise again, Bean! I\'m trying to get some peace and quiet!"),
   (["garden"], "Stay away from my garden, Bean! I saw what you did to my flowers last time!"),
   (["hello", "hi"], "What do you want now, Bean?"),
   (["sorry"], "Hmph! You\'re always sorry after the fact, aren\'t you?")]

/-- Rupert\'s fallback response. -/
def rupertFallback : String := "Just keep your distance, Bean. I\'m watching you!"

/-- The generic citizen\'s ordered keyword table. -/
def genericTable : List (List String × String) :=
  [(["hello", "hi"], "Hello! Lovely day, isn\'t it?"),
   (["weather"], "Yes, typical British weather we\'re having!"),
   (["bean"], "Oh, you know Mr. Bean? Quite a peculiar fellow, isn\'t he?"),
   (["shop", "store"], "The shops around here are quite nice. Have you tried the new café?"),
   (["car"], "That green Mini is always causing chaos around here!")]

/-- The generic citizen\'s fallback response. -/
def genericFallback : String := "Oh, how interesting! Do tell me more about that."

/-- The keyword table the dispatch selects for a given NPC identity. -/
def tableFor (isMainNPC : Bool) (name : String) : List (List String × String) :=
  if isMainNPC then
    if name == "Mrs. Wicket" then mrsWicketTable
    else if name == "Irma Gobb" then irmaTable
    else if name == "Rupert" then rupertTable
    else genericTable
  else genericTable

/-- The fallback the dispatch selects for a given NPC identity. -/
def fallbackFor (isMainNPC : Bool) (name : String) : String :=
  if isMainNPC then
    if name == "Mrs. Wicket" then mrsWicketFallback
    else if name == "Irma Gobb" then irmaFallback
    else if name == "Rupert" then rupertFallback
    else genericFallback
  else genericFallback

/-! ### NPC interaction freeze (claim C9) -/

/-- The two speed fields one NPC carries, plus the pending restore timers.
`userDataSpeed` is `npc.userData.walkSpeed` (`none` = the JS field is
undefined): set to 0.01 by `createMainNPC`, absent for background NPCs.
`directSpeed` is the direct `npc.walkSpeed` property (`none` = undefined): set
by `setupNPCs` for background NPCs, absent for main-cast NPCs.  Each timer
holds the ticks until its 30000 ms `setTimeout` fires and the `currentSpeed`
value the interaction handler captured. -/
structure FreezeState where
  userDataSpeed : Option ℚ
  directSpeed : Option ℚ
  timers : List (Nat × Option ℚ)
deriving DecidableEq

/-- The speed the NPC\'s movement update actually multiplies by:
`updateNPCsWithCulling` reads `npc.userData.walkSpeed` for main-cast NPCs and
the direct `npc.walkSpeed` property for background NPCs. -/
def moveSpeed (isMainNPC : Bool) (s : FreezeState) : Option ℚ :=
  if isMainNPC then s.userDataSpeed else s.directSpeed

/-- One one-second tick for one NPC.  Pending timers count down and any timer
reaching zero fires, writing its captured value back (in registration order,
as the event loop runs callbacks).  If the player interacts with the NPC this
tick, the handler tests `closestNPC.userData ? ... : ...` — and since
`Object3D.userData` defaults to the truthy `{}`, it always takes the
`userData` branch: it captures `userData.walkSpeed`, writes 0 there, and
registers a 30-tick restore timer, without cancelling older timers.  The
restore callback makes the same truthy test, so it also writes
`userData.walkSpeed`; the direct `walkSpeed` property is never touched. -/
def stepFreeze (s : FreezeState) (interact : Bool) : FreezeState :=
  let fired := s.timers.filter (fun t => t.1 ≤ 1)
  let rest := (s.timers.filter (fun t => 1 < t.1)).map (fun t => (t.1 - 1, t.2))
  let ud1 := fired.foldl (fun _ t => t.2) s.userDataSpeed
  if interact then
    { userDataSpeed := some 0, directSpeed := s.directSpeed,
      timers := rest ++ [(30, ud1)] }
  else
    { userDataSpeed := ud1, directSpeed := s.directSpeed, timers := rest }

/-- Run a tick-by-tick interaction schedule. -/
def runFreeze (s : FreezeState) (evs : List Bool) : FreezeState :=
  evs.foldl stepFreeze s

/-- A main-cast NPC walking at speed `v` (`createMainNPC` sets
`userData.walkSpeed`; there is no direct `walkSpeed` property), no
interaction pending. -/
def initMainFreeze (v : ℚ) : FreezeState :=
  { userDataSpeed := some v, directSpeed := none, timers := [] }

/-- A background NPC walking at speed `v` (`setupNPCs` sets the direct
`npc.walkSpeed` property; `userData.walkSpeed` is undefined), no interaction
pending. -/
def initBackgroundFreeze (v : ℚ) : FreezeState :=
  { userDataSpeed := none, directSpeed := some v, timers := [] }

/-- Interact at tick 0 and again at tick 10, then wait out both timers. -/
def overlapEvents : List Bool :=
  [true] ++ List.replicate 9 false ++ [true] ++ List.replicate 30 false

/-! ### Main-NPC wander radius (claim C4)

`updateNPCsWithCulling` moves a main NPC by `(cos(dir)*walkSpeed, 0,
sin(dir)*walkSpeed)`, accepts the move only when
`newPosition.distanceTo(originalPosition) < maxWanderDistance` (5 for every
main NPC per `createMainNPC`), and otherwise leaves the position alone and
overwrites the heading with `atan2(origZ - posZ, origX - posX)`.  The model
works in the ground plane, abstracts `Math.cos`, `Math.sin` and `Math.atan2`
as arbitrary function parameters (the invariant holds for any values they
return), and compares squared distances: for nonnegative radius 5,
`distanceTo(o) < 5` is exactly `dist2 _ o < 5 ^ 2`. -/

/-- A main NPC\'s mutable wander data: ground-plane position and heading. -/
structure WanderState where
  pos : ℚ × ℚ
  dir : ℚ
deriving DecidableEq

/-- One tick\'s environment inputs: is the player within 50 units (the culling
gate), and the heading perturbation drawn this tick, if the 2% roll hit. -/
structure WanderInput where
  near50 : Bool
  perturb : Option ℚ
deriving DecidableEq

/-- Squared ground-plane distance. -/
def dist2 (a b : ℚ × ℚ) : ℚ := (a.1 - b.1) ^ 2 + (a.2 - b.2) ^ 2

/-- Heading after this tick\'s optional random perturbation. -/
def wanderDir (inp : WanderInput) (st : WanderState) : ℚ :=
  match inp.perturb with
  | some d => st.dir + d
  | none => st.dir

/-- The projected next position (`newPosition` in the source). -/
def projPos (cosF sinF : ℚ → ℚ) (speed : ℚ) (inp : WanderInput)
    (st : WanderState) : ℚ × ℚ :=
  (st.pos.1 + cosF (wanderDir inp st) * speed,
   st.pos.2 + sinF (wanderDir inp st) * speed)

/-- One tick of the main-NPC wander logic. -/
def stepMainNPC (cosF sinF : ℚ → ℚ) (atan2F : ℚ → ℚ → ℚ) (anchor : ℚ × ℚ)
    (speed : ℚ) (st : WanderState) (inp : WanderInput) : WanderState :=
  if inp.near50 then
    let dir1 := wanderDir inp st
    let newPos := projPos cosF sinF speed inp st
    if dist2 newPos anchor < 5 ^ 2 then { pos := newPos, dir := dir1 }
    else { pos := st.pos, dir := atan2F (anchor.2 - st.pos.2) (anchor.1 - st.pos.1) }
  else st

/-- Run a sequence of ticks. -/
def runMainNPC (cosF sinF : ℚ → ℚ) (atan2F : ℚ → ℚ → ℚ) (anchor : ℚ × ℚ)
    (speed : ℚ) (st : WanderState) (inputs : List WanderInput) : WanderState :=
  inputs.foldl (stepMainNPC cosF sinF atan2F anchor speed) st

/-! ## Theorems -/

/-! ## Collision and boundary theorems (claims C1-C3) -/

/-- The clamp keeps a coordinate inside `[-95, 95]`. -/
theorem clamp95_mem (c : ℚ) : -95 ≤ clamp95 c ∧ clamp95 c ≤ 95 :=
  ⟨le_max_left _ _, max_le (by norm_num) (min_le_left _ _)⟩

/-- The clamp fixes a coordinate already inside `[-95, 95]`. -/
theorem clamp95_eq_self {c : ℚ} (h1 : -95 ≤ c) (h2 : c ≤ 95) : clamp95 c = c := by
  unfold clamp95
  rw [min_eq_right h2, max_eq_right h1]

/-- C1, counterexample.  In the scene the game builds (all 15 tree draws at
`0.5`), the player standing at `(-40, 0.9, -26)` and proposing the move
`(0, 0, -1)` has a candidate footprint intersecting the world-space box of
Mr. Bean's house — a registered static collider — yet the move is accepted and
the player's position changes: the resolver tested the house's collider at the
house's parent-relative position `(0,0,0)`, not at its world position. -/
theorem collisionSoundness_worldBox_counterexample :
    beanHouse ∈ sceneSample ∧
    beanHouse.worldBox.map
        (fun b => b.intersectsBox
          (playerFootprint (Vec3.add ⟨-40, 9/10, -26⟩ ⟨0, 0, -1⟩))) = some true ∧
    updatePlayer sceneSample ⟨-40, 9/10, -26⟩ ⟨0, 0, -1⟩ ≠ ⟨-40, 9/10, -26⟩ := by
  with_unfolding_all decide

/-- C1, as amended: if the candidate footprint intersects the box the resolver
computes for any registered collider (the stored collider translated by the
owner's parent-relative `position`, which is the world-space box for top-level
objects such as the stores), then the whole move is rejected and an in-bounds
player position is left unchanged for that tick — no partial slide. -/
theorem collisionSoundness_queryBox (objs : List SceneObj) (pos v : Vec3)
    (o : SceneObj) (hmem : o ∈ objs)
    (hhit : o.queryHits (playerFootprint (pos.add v)) = true)
    (hx1 : -95 ≤ pos.x) (hx2 : pos.x ≤ 95)
    (hz1 : -95 ≤ pos.z) (hz2 : pos.z ≤ 95) :
    updatePlayer objs pos v = pos := by
  have hblocked : blocked objs (playerFootprint (pos.add v)) = true :=
    List.any_eq_true.mpr ⟨o, hmem, hhit⟩
  unfold updatePlayer
  simp only [hblocked, if_pos]
  rw [clamp95_eq_self hx1 hx2, clamp95_eq_self hz1 hz2]

/-- Witness for `collisionSoundness_queryBox`: the player at `(0, 1, 3.5)`
proposing `(0, 0, -1)` hits the (mis-placed) query box of Mr. Bean's house and
stays put. -/
theorem collisionSoundness_queryBox_witness :
    beanHouse ∈ sceneSample ∧
    beanHouse.queryHits
      (playerFootprint (Vec3.add ⟨0, 1, 7/2⟩ ⟨0, 0, -1⟩)) = true ∧
    updatePlayer sceneSample ⟨0, 1, 7/2⟩ ⟨0, 0, -1⟩ = ⟨0, 1, 7/2⟩ :=
  ⟨by with_unfolding_all decide, by with_unfolding_all decide,
    collisionSoundness_queryBox sceneSample ⟨0, 1, 7/2⟩ ⟨0, 0, -1⟩ beanHouse
      (by with_unfolding_all decide) (by with_unfolding_all decide)
      (by with_unfolding_all decide) (by with_unfolding_all decide)
      (by with_unfolding_all decide) (by with_unfolding_all decide)⟩

/-- C2: the box used by the collision query is **not** the local box translated
by the owner's world position once the owner is nested in a group.  For
Mr. Bean's house (inside the Arbour Road group at `(-40, 0, -30)`) the query
uses the box at the origin while the world-space box sits at the house; for the
first park bench the stored collider already contains the bench's park-local
offset, so the query double-translates it and also drops the park group's
`(0, 0, 30)` offset. -/
theorem colliderResolution_bug :
    beanHouse ∈ sceneSample ∧ benchSample ∈ sceneSample ∧
    beanHouse.queryBox = some ⟨⟨-3, 0, -3⟩, ⟨3, 8, 3⟩⟩ ∧
    beanHouse.worldBox = some ⟨⟨-43, 0, -33⟩, ⟨-37, 8, -27⟩⟩ ∧
    beanHouse.queryBox ≠ beanHouse.worldBox ∧
    benchSample.queryBox = some ⟨⟨-31, 0, -303/10⟩, ⟨-29, 8/10, -297/10⟩⟩ ∧
    benchSample.worldBox = some ⟨⟨-16, 0, 147/10⟩, ⟨-14, 8/10, 153/10⟩⟩ ∧
    benchSample.queryBox ≠ benchSample.worldBox := by
  with_unfolding_all decide

/-- C3: whatever the proposed move and whatever the collision outcome, the
player's x and z coordinates after `updatePlayer` lie in `[-95, 95]`. -/
theorem boundaryContainment (objs : List SceneObj) (pos v : Vec3) :
    -95 ≤ (updatePlayer objs pos v).x ∧ (updatePlayer objs pos v).x ≤ 95 ∧
    -95 ≤ (updatePlayer objs pos v).z ∧ (updatePlayer objs pos v).z ≤ 95 := by
  unfold updatePlayer
  exact ⟨(clamp95_mem _).1, (clamp95_mem _).2, (clamp95_mem _).1, (clamp95_mem _).2⟩

theorem stepsOrdered_tail {x : Bool} {t : List Bool}
    (h : stepsOrdered (x :: t) = true) : stepsOrdered t = true := by
  cases t with
  | nil => rfl
  | cons y t' =>
    unfold stepsOrdered at h
    simp only [Bool.and_eq_true] at h
    exact h.2

theorem stepsOrdered_cons_head {x y : Bool} {t : List Bool}
    (h : stepsOrdered (x :: y :: t) = true) : (!y || x) = true := by
  unfold stepsOrdered at h
  simp only [Bool.and_eq_true] at h
  exact h.1

theorem stepsOrdered_true_head {x : Bool} {t : List Bool}
    (h : stepsOrdered (x :: t) = true) : stepsOrdered (true :: t) = true := by
  cases t with
  | nil => rfl
  | cons y t' =>
    unfold stepsOrdered at h ⊢
    simp only [Bool.and_eq_true] at h ⊢
    exact ⟨by simp, h.2⟩

theorem stepsOrdered_set_zero {l : List Bool}
    (h : stepsOrdered l = true) : stepsOrdered (l.set 0 true) = true := by
  cases l with
  | nil => rfl
  | cons x t => exact stepsOrdered_true_head h

theorem stepsOrdered_set_succ (l : List Bool) (i : Nat)
    (h : stepsOrdered l = true) (hp : l.getD i false = true) :
    stepsOrdered (l.set (i + 1) true) = true := by
  induction l generalizing i with
  | nil => rfl
  | cons x t ih =>
    cases i with
    | zero =>
      have hx : x = true := hp
      cases t with
      | nil => rfl
      | cons y t' =>
        show stepsOrdered (x :: true :: t') = true
        unfold stepsOrdered
        simp only [Bool.and_eq_true]
        refine ⟨by simp [hx], ?_⟩
        exact stepsOrdered_true_head (stepsOrdered_tail h)
    | succ j =>
      cases t with
      | nil => rfl
      | cons y t' =>
        have htail : stepsOrdered ((y :: t').set (j + 1) true) = true :=
          ih j (stepsOrdered_tail h) hp
        show stepsOrdered (x :: y :: t'.set j true) = true
        unfold stepsOrdered
        simp only [Bool.and_eq_true]
        exact ⟨stepsOrdered_cons_head h, htail⟩

theorem stepsOrdered_reset (l : List Bool) :
    stepsOrdered (l.map (fun _ => false)) = true := by
  induction l with
  | nil => rfl
  | cons x t ih =>
    cases t with
    | nil => rfl
    | cons y t' =>
      show stepsOrdered (false :: false :: t'.map (fun _ => false)) = true
      unfold stepsOrdered
      simp only [Bool.and_eq_true]
      exact ⟨by simp, ih⟩

/-! ### Frame lemmas for the challenge operations -/

theorem findChallenge_pushDialog (s : GameState) (a b : String) (j : Nat) :
    findChallenge (pushDialog s a b) j = findChallenge s j := rfl

theorem challenges_pushDialog (s : GameState) (a b : String) :
    (pushDialog s a b).challenges = s.challenges := rfl

/-- `find?` through a by-id rewrite: challenges with a different id are
untouched, the one with the rewritten id is mapped. -/
theorem find?_mapChallengeById (cs : List Challenge) (aid j : Nat)
    (f : Challenge → Challenge) (hf : ∀ c, (f c).id = c.id) :
    (mapChallengeById cs aid f).find? (fun c => c.id == j) =
      if aid = j then (cs.find? (fun c => c.id == j)).map f
      else cs.find? (fun c => c.id == j) := by
  induction cs with
  | nil => simp [mapChallengeById]
  | cons c t ih =>
    simp only [mapChallengeById, List.map_cons] at ih ⊢
    by_cases hc : c.id = aid
    · by_cases hj : aid = j
      · subst hj
        simp [List.find?_cons, hc, hf]
      · have hcj : (c.id == j) = false := by simp [hc, hj]
        rw [if_pos (by simp [hc] : (c.id == aid) = true), List.find?_cons,
          List.find?_cons]
        simp only [hf, hcj]
        rw [if_neg hj] at ih
        rw [ih, if_neg hj]
    · rw [if_neg (by simp [hc] : ¬ (c.id == aid) = true)]
      by_cases hcj : c.id = j
      · have hj : ¬ aid = j := fun h => hc (by rw [hcj, h])
        rw [List.find?_cons, List.find?_cons]
        simp only [(by simp [hcj] : (c.id == j) = true)]
        simp [hj]
      · rw [List.find?_cons, List.find?_cons]
        simp only [(by simp [hcj] : (c.id == j) = false)]
        rw [ih]

theorem findChallenge_updateChallengeProgress_ne (s : GameState) (i j : Nat)
    (h : s.activeId ≠ some j) :
    findChallenge (updateChallengeProgress s i) j = findChallenge s j := by
  cases hA : s.activeId with
  | none => simp only [updateChallengeProgress, hA]
  | some aid =>
    have haid : ¬ aid = j := fun hEq => h (hEq ▸ hA)
    cases hF : findChallenge s aid with
    | none => simp only [updateChallengeProgress, hA, hF]
    | some c =>
      simp only [updateChallengeProgress, hA, hF]
      split
      · split
        · simp only [findChallenge, pushDialog]
          rw [find?_mapChallengeById, if_neg haid]
          exact fun c0 => rfl
        · simp only [findChallenge]
          rw [find?_mapChallengeById, if_neg haid]
          exact fun c0 => rfl
      · rfl

theorem activeId_updateChallengeProgress (s : GameState) (i : Nat) :
    (updateChallengeProgress s i).activeId = s.activeId ∨
    (updateChallengeProgress s i).activeId = none := by
  cases hA : s.activeId with
  | none => exact Or.inl (by simp only [updateChallengeProgress, hA])
  | some aid =>
    cases hF : findChallenge s aid with
    | none => exact Or.inl (by simp only [updateChallengeProgress, hA, hF])
    | some c =>
      simp only [updateChallengeProgress, hA, hF]
      split
      · split
        · exact Or.inr rfl
        · exact Or.inl rfl
      · exact Or.inl hA

theorem findChallenge_completeChallenge_ne (s : GameState) (j : Nat)
    (h : s.activeId ≠ some j) :
    findChallenge (completeChallenge s) j = findChallenge s j := by
  cases hA : s.activeId with
  | none => simp only [completeChallenge, hA]
  | some aid =>
    have haid : ¬ aid = j := fun hEq => h (hEq ▸ hA)
    cases hF : findChallenge s aid with
    | none => simp only [completeChallenge, hA, hF]
    | some c =>
      simp only [completeChallenge, hA, hF]
      simp only [findChallenge, pushDialog]
      rw [find?_mapChallengeById, if_neg haid]
      exact fun c0 => rfl

/-! ### Preservation of downward-closed step flags (claim C5) -/

theorem orderedCs_mapChallengeById (cs : List Challenge) (aid : Nat)
    (f : Challenge → Challenge) (h : orderedCs cs = true)
    (hf : ∀ c, c ∈ cs → stepsOrdered c.steps = true →
      stepsOrdered (f c).steps = true) :
    orderedCs (mapChallengeById cs aid f) = true := by
  simp only [orderedCs, mapChallengeById, List.all_eq_true] at h ⊢
  intro x hx
  rcases List.mem_map.mp hx with ⟨c, hc, rfl⟩
  by_cases hid : (c.id == aid) = true
  · simp only [if_pos hid]
    exact hf c hc (h c hc)
  · simp only [if_neg hid]
    exact h c hc

theorem orderedCs_updateChallengeProgress (s : GameState) (i : Nat)
    (h : orderedCs s.challenges = true)
    (hp : ∀ aid c, s.activeId = some aid → findChallenge s aid = some c →
      (i = 0 ∨ c.steps.getD (i - 1) false = true)) :
    orderedCs (updateChallengeProgress s i).challenges = true := by
  cases hA : s.activeId with
  | none => simp only [updateChallengeProgress, hA]; exact h
  | some aid =>
    cases hF : findChallenge s aid with
    | none => simp only [updateChallengeProgress, hA, hF]; exact h
    | some c =>
      have hmem : c ∈ s.challenges := List.mem_of_find?_eq_some hF
      have hco : stepsOrdered c.steps = true := by
        have := (List.all_eq_true.mp h) c hmem
        simpa using this
      have hset : stepsOrdered (c.steps.set i true) = true := by
        rcases hp aid c hA hF with h0 | hprev
        · subst h0
          exact stepsOrdered_set_zero hco
        · cases i with
          | zero => exact stepsOrdered_set_zero hco
          | succ j => exact stepsOrdered_set_succ _ j hco hprev
      simp only [updateChallengeProgress, hA, hF]
      split
      · split
        · show orderedCs (mapChallengeById s.challenges aid
            (completeStepsF (c.steps.set i true))) = true
          exact orderedCs_mapChallengeById _ _ _ h
            (fun c0 _ _ => by simpa [completeStepsF] using hset)
        · show orderedCs (mapChallengeById s.challenges aid
            (setStepsF (c.steps.set i true))) = true
          exact orderedCs_mapChallengeById _ _ _ h
            (fun c0 _ _ => by simpa [setStepsF] using hset)
      · exact h

theorem orderedCs_completeChallenge (s : GameState)
    (h : orderedCs s.challenges = true) :
    orderedCs (completeChallenge s).challenges = true := by
  cases hA : s.activeId with
  | none => simp only [completeChallenge, hA]; exact h
  | some aid =>
    cases hF : findChallenge s aid with
    | none => simp only [completeChallenge, hA, hF]; exact h
    | some c =>
      simp only [completeChallenge, hA, hF]
      show orderedCs (mapChallengeById _ aid completeF) = true
      exact orderedCs_mapChallengeById _ _ _ h
        (fun c0 _ hc0 => by simpa [completeF] using hc0)

theorem orderedCs_startChallenge (s : GameState) (id : Nat)
    (h : orderedCs s.challenges = true) :
    orderedCs (startChallenge s id).challenges = true := by
  cases hF : findChallenge s id with
  | none => simp only [startChallenge, hF]; exact h
  | some c =>
    cases hA : s.activeId with
    | none =>
      simp only [startChallenge, hF, hA]
      split
      · exact h
      · exact h
    | some aid =>
      simp only [startChallenge, hF, hA]
      split
      · exact h
      · split
        · exact h
        · show orderedCs (mapChallengeById s.challenges aid resetStepsF) = true
          exact orderedCs_mapChallengeById _ _ _ h
            (fun c0 _ _ => by simpa [resetStepsF] using stepsOrdered_reset c0.steps)

theorem orderedCs_checkChallengeProgress (s : GameState) (ev : TalkEvent)
    (h : orderedCs s.challenges = true) :
    orderedCs (checkChallengeProgress s ev).challenges = true := by
  cases hA : s.activeId with
  | none => simp only [checkChallengeProgress, hA]; exact h
  | some aid =>
    cases hF : findChallenge s aid with
    | none => simp only [checkChallengeProgress, hA, hF]; exact h
    | some c =>
      have huniq : ∀ aid0 c0, s.activeId = some aid0 →
          findChallenge s aid0 = some c0 → c0 = c := by
        intro aid0 c0 h1 h2
        rw [hA] at h1
        injection h1 with h1
        subst h1
        rw [hF] at h2
        injection h2 with h2
        exact h2.symm
      simp only [checkChallengeProgress, hA, hF]
      split
      · -- challenge 1
        split
        · exact orderedCs_updateChallengeProgress s 0 h (fun a0 c0 _ _ => Or.inl rfl)
        · split
          · rename_i hg2
            split
            · rw [challenges_pushDialog]
              refine orderedCs_updateChallengeProgress s 1 h ?_
              intro a0 c0 h1 h2
              rw [huniq a0 c0 h1 h2]
              simp only [Bool.and_eq_true] at hg2
              exact Or.inr hg2.1
            · exact h
          next =>
            split
            · rename_i hg3
              split
              · refine orderedCs_completeChallenge _ ?_
                refine orderedCs_updateChallengeProgress s 2 h ?_
                intro a0 c0 h1 h2
                rw [huniq a0 c0 h1 h2]
                simp only [Bool.and_eq_true] at hg3
                exact Or.inr hg3.1
              · exact h
            next => exact h
      · split
        · -- challenge 2
          split
          next hn0 =>
            split
            · rw [challenges_pushDialog]
              exact orderedCs_updateChallengeProgress s 0 h (fun a0 c0 _ _ => Or.inl rfl)
            · exact h
          next hn0 =>
            split
            · rw [challenges_pushDialog]
              refine orderedCs_updateChallengeProgress s 1 h ?_
              intro a0 c0 h1 h2
              rw [huniq a0 c0 h1 h2]
              have h0 : c.steps.getD 0 false = true := by
                revert hn0
                cases c.steps.getD 0 false <;> simp
              exact Or.inr h0
            · split
              · rename_i hg6
                split
                · refine orderedCs_completeChallenge _ ?_
                  refine orderedCs_updateChallengeProgress s 2 h ?_
                  intro a0 c0 h1 h2
                  rw [huniq a0 c0 h1 h2]
                  simp only [Bool.and_eq_true] at hg6
                  exact Or.inr hg6.1
                · exact h
              next => exact h
        · split
          · -- challenge 3
            split
            · rw [challenges_pushDialog]
              exact orderedCs_updateChallengeProgress s 0 h (fun a0 c0 _ _ => Or.inl rfl)
            · split
              · rename_i hg8
                split
                · rw [challenges_pushDialog]
                  refine orderedCs_updateChallengeProgress s 1 h ?_
                  intro a0 c0 h1 h2
                  rw [huniq a0 c0 h1 h2]
                  simp only [Bool.and_eq_true] at hg8
                  exact Or.inr hg8.1
                · exact h
              next =>
                split
                · rename_i hg9
                  split
                  · refine orderedCs_completeChallenge _ ?_
                    refine orderedCs_updateChallengeProgress s 2 h ?_
                    intro a0 c0 h1 h2
                    rw [huniq a0 c0 h1 h2]
                    simp only [Bool.and_eq_true] at hg9
                    exact Or.inr hg9.1
                  · exact h
                next => exact h
          · exact h

theorem findChallenge_checkChallengeProgress_or (s : GameState) (ev : TalkEvent)
    (j : Nat) :
    findChallenge (checkChallengeProgress s ev) j = findChallenge s j ∨
    s.activeId = some j := by
  by_cases hj : s.activeId = some j
  · exact Or.inr hj
  · refine Or.inl ?_
    have hcc : ∀ i : Nat,
        findChallenge (completeChallenge (updateChallengeProgress s i)) j =
          findChallenge s j := by
      intro i
      have h2 : (updateChallengeProgress s i).activeId ≠ some j := by
        rcases activeId_updateChallengeProgress s i with hh | hh <;> rw [hh]
        · exact hj
        · simp
      rw [findChallenge_completeChallenge_ne _ _ h2,
        findChallenge_updateChallengeProgress_ne _ _ _ hj]
    cases hA : s.activeId with
    | none => simp only [checkChallengeProgress, hA]
    | some aid =>
      cases hF : findChallenge s aid with
      | none => simp only [checkChallengeProgress, hA, hF]
      | some c =>
        simp only [checkChallengeProgress, hA, hF]
        split_ifs
        all_goals
          first
          | rfl
          | exact findChallenge_updateChallengeProgress_ne s _ j hj
          | (rw [findChallenge_pushDialog]
             exact findChallenge_updateChallengeProgress_ne s _ j hj)
          | exact hcc _

theorem orderedCs_stepChallengeAction (s : GameState) (a : ChallengeAction)
    (h : orderedCs s.challenges = true) :
    orderedCs (stepChallengeAction s a).challenges = true := by
  cases a with
  | start id => exact orderedCs_startChallenge s id h
  | talk ev => exact orderedCs_checkChallengeProgress s ev h

theorem orderedCs_runChallengeActions (s : GameState) (acts : List ChallengeAction)
    (h : orderedCs s.challenges = true) :
    orderedCs (runChallengeActions s acts).challenges = true := by
  induction acts generalizing s with
  | nil => exact h
  | cons a t ih => exact ih _ (orderedCs_stepChallengeAction s a h)

/-- C5: for every sequence of start/talk actions from the initial state, the
step flags of every challenge stay downward closed (so `checkChallengeProgress`
never marks step N while step N-1 is incomplete, in any reachable state and
after any further event), and one more event leaves the steps of every
challenge other than the active one untouched. -/
theorem stepOrdering (acts : List ChallengeAction) (ev : TalkEvent) :
    orderedCs (runChallengeActions initGameState acts).challenges = true ∧
    orderedCs (checkChallengeProgress (runChallengeActions initGameState acts)
      ev).challenges = true ∧
    ∀ j : Nat,
      findChallenge (checkChallengeProgress (runChallengeActions initGameState acts) ev) j =
        findChallenge (runChallengeActions initGameState acts) j ∨
      (runChallengeActions initGameState acts).activeId = some j := by
  have h0 : orderedCs initGameState.challenges = true := by decide
  have h1 := orderedCs_runChallengeActions initGameState acts h0
  exact ⟨h1, orderedCs_checkChallengeProgress _ ev h1,
    fun j => findChallenge_checkChallengeProgress_or _ ev j⟩

/-! ### Small list facts used by the challenge proofs -/

theorem getD_set_self (l : List Bool) (i : Nat) (h : i < l.length) :
    (l.set i true).getD i false = true := by
  induction l generalizing i with
  | nil => simp at h
  | cons x t ih =>
    cases i with
    | zero => rfl
    | succ j =>
      simp only [List.set_cons_succ, List.getD_cons_succ]
      exact ih j (by simpa using h)

theorem getD_set_ne (l : List Bool) (i j : Nat) (d : Bool) (h : i ≠ j) :
    (l.set i true).getD j d = l.getD j d := by
  induction l generalizing i j with
  | nil => rfl
  | cons x t ih =>
    cases i with
    | zero =>
      cases j with
      | zero => exact absurd rfl h
      | succ j' => rfl
    | succ i' =>
      cases j with
      | zero => rfl
      | succ j' =>
        simp only [List.set_cons_succ, List.getD_cons_succ]
        exact ih i' j' (fun hEq => h (by rw [hEq]))

theorem all_false_of_getD (l : List Bool) (i : Nat) (hi : i < l.length)
    (h : l.getD i false = false) : l.all (fun b => b) = false := by
  cases hall : l.all (fun b => b) with
  | false => rfl
  | true =>
    have hmem : l.get ⟨i, hi⟩ ∈ l := l.get_mem i hi
    have htrue := (List.all_eq_true.mp hall) _ hmem
    have hgd : l.getD i false = l.get ⟨i, hi⟩ := by
      simp [List.getD_eq_getElem?_getD, List.getElem?_eq_getElem hi]
    rw [hgd, htrue] at h
    exact absurd h (by simp)

theorem getD_map_false (l : List Bool) (i : Nat) :
    (l.map (fun _ => false)).getD i false = false := by
  induction l generalizing i with
  | nil => rfl
  | cons x t ih =>
    cases i with
    | zero => rfl
    | succ j =>
      simp only [List.map_cons, List.getD_cons_succ]
      exact ih j

theorem ids_mapChallengeById (cs : List Challenge) (aid : Nat)
    (f : Challenge → Challenge) (hf : ∀ c, (f c).id = c.id) :
    (mapChallengeById cs aid f).map (fun c => c.id) = cs.map (fun c => c.id) := by
  induction cs with
  | nil => rfl
  | cons c t ih =>
    simp only [mapChallengeById, List.map_cons] at ih ⊢
    by_cases hc : (c.id == aid) = true
    · simp only [if_pos hc, List.map_cons, hf]
      rw [ih]
    · simp only [if_neg hc, List.map_cons]
      rw [ih]

/-! ### Preservation of the C10 invariant -/

theorem stuckCs_mapById_ne (cs : List Challenge) (aid : Nat)
    (f : Challenge → Challenge) (hf : ∀ c, (f c).id = c.id)
    (h : stuckCs cs = true) (h1 : ¬ aid = 1) (h3 : ¬ aid = 3) :
    stuckCs (mapChallengeById cs aid f) = true := by
  unfold stuckCs at h ⊢
  simp only [Bool.and_eq_true] at h ⊢
  obtain ⟨⟨hids, hc1⟩, hc3⟩ := h
  refine ⟨⟨?_, ?_⟩, ?_⟩
  · rw [ids_mapChallengeById cs aid f hf]
    exact hids
  · rw [find?_mapChallengeById cs aid 1 f hf, if_neg h1]
    exact hc1
  · rw [find?_mapChallengeById cs aid 3 f hf, if_neg h3]
    exact hc3

theorem stuckCs_mapById_1 (cs : List Challenge) (f : Challenge → Challenge)
    (hf : ∀ c, (f c).id = c.id) (h : stuckCs cs = true)
    (hok : ∀ c, cs.find? (fun c0 => c0.id == 1) = some c → okC1 c = true →
      okC1 (f c) = true) :
    stuckCs (mapChallengeById cs 1 f) = true := by
  unfold stuckCs at h ⊢
  simp only [Bool.and_eq_true] at h ⊢
  obtain ⟨⟨hids, hc1⟩, hc3⟩ := h
  refine ⟨⟨?_, ?_⟩, ?_⟩
  · rw [ids_mapChallengeById cs 1 f hf]
    exact hids
  · rw [find?_mapChallengeById cs 1 1 f hf, if_pos rfl]
    cases hF : cs.find? (fun c => c.id == 1) with
    | none => rw [hF] at hc1; exact absurd hc1 (by simp)
    | some a =>
      rw [hF] at hc1
      simp only [Option.map_some']
      exact hok a hF hc1
  · rw [find?_mapChallengeById cs 1 3 f hf, if_neg (by decide : ¬ (1 : Nat) = 3)]
    exact hc3

theorem stuckCs_mapById_3 (cs : List Challenge) (f : Challenge → Challenge)
    (hf : ∀ c, (f c).id = c.id) (h : stuckCs cs = true)
    (hok : ∀ c, cs.find? (fun c0 => c0.id == 3) = some c → okC3 c = true →
      okC3 (f c) = true) :
    stuckCs (mapChallengeById cs 3 f) = true := by
  unfold stuckCs at h ⊢
  simp only [Bool.and_eq_true] at h ⊢
  obtain ⟨⟨hids, hc1⟩, hc3⟩ := h
  refine ⟨⟨?_, ?_⟩, ?_⟩
  · rw [ids_mapChallengeById cs 3 f hf]
    exact hids
  · rw [find?_mapChallengeById cs 3 1 f hf, if_neg (by decide : ¬ (3 : Nat) = 1)]
    exact hc1
  · rw [find?_mapChallengeById cs 3 3 f hf, if_pos rfl]
    cases hF : cs.find? (fun c => c.id == 3) with
    | none => rw [hF] at hc3; exact absurd hc3 (by simp)
    | some a =>
      rw [hF] at hc3
      simp only [Option.map_some']
      exact hok a hF hc3

theorem stuckCs_updateChallengeProgress_2 (s : GameState) (i : Nat)
    (hA : s.activeId = some 2) (h : stuckCs s.challenges = true) :
    stuckCs (updateChallengeProgress s i).challenges = true := by
  cases hF : findChallenge s 2 with
  | none => simp only [updateChallengeProgress, hA, hF]; exact h
  | some b =>
    simp only [updateChallengeProgress, hA, hF]
    split
    · split
      · show stuckCs (mapChallengeById s.challenges 2 (completeStepsF _)) = true
        exact stuckCs_mapById_ne _ _ _ (fun c => rfl) h (by decide) (by decide)
      · show stuckCs (mapChallengeById s.challenges 2 (setStepsF _)) = true
        exact stuckCs_mapById_ne _ _ _ (fun c => rfl) h (by decide) (by decide)
    · exact h

theorem stuckCs_completeChallenge (s : GameState)
    (h : stuckCs s.challenges = true)
    (h1 : s.activeId ≠ some 1) (h3 : s.activeId ≠ some 3) :
    stuckCs (completeChallenge s).challenges = true := by
  cases hA : s.activeId with
  | none => simp only [completeChallenge, hA]; exact h
  | some aid =>
    cases hF : findChallenge s aid with
    | none => simp only [completeChallenge, hA, hF]; exact h
    | some c =>
      simp only [completeChallenge, hA, hF]
      show stuckCs (mapChallengeById s.challenges aid completeF) = true
      refine stuckCs_mapById_ne _ _ _ (fun c0 => rfl) h ?_ ?_
      · intro hEq; exact h1 (by rw [hA, hEq])
      · intro hEq; exact h3 (by rw [hA, hEq])

theorem stuckCs_startChallenge (s : GameState) (id : Nat)
    (h : stuckCs s.challenges = true) :
    stuckCs (startChallenge s id).challenges = true := by
  cases hF : findChallenge s id with
  | none => simp only [startChallenge, hF]; exact h
  | some c =>
    cases hA : s.activeId with
    | none =>
      simp only [startChallenge, hF, hA]
      split
      · exact h
      · exact h
    | some aid =>
      simp only [startChallenge, hF, hA]
      split
      · exact h
      · split
        · exact h
        · show stuckCs (mapChallengeById s.challenges aid resetStepsF) = true
          by_cases ha1 : aid = 1
          · subst ha1
            refine stuckCs_mapById_1 _ _ (fun c0 => rfl) h ?_
            intro a hFa hok
            unfold okC1 at hok ⊢
            simp only [Bool.and_eq_true] at hok ⊢
            obtain ⟨⟨⟨hl, _⟩, _⟩, hc⟩ := hok
            refine ⟨⟨⟨?_, ?_⟩, ?_⟩, ?_⟩
            · simpa [resetStepsF] using hl
            · simp [resetStepsF, getD_map_false]
            · simp [resetStepsF, getD_map_false]
            · simpa [resetStepsF] using hc
          · by_cases ha3 : aid = 3
            · subst ha3
              refine stuckCs_mapById_3 _ _ (fun c0 => rfl) h ?_
              intro a hFa hok
              unfold okC3 at hok ⊢
              simp only [Bool.and_eq_true] at hok ⊢
              obtain ⟨⟨hl, _⟩, hc⟩ := hok
              refine ⟨⟨?_, ?_⟩, ?_⟩
              · simpa [resetStepsF] using hl
              · simp [resetStepsF, getD_map_false]
              · simpa [resetStepsF] using hc
            · exact stuckCs_mapById_ne _ _ _ (fun c0 => rfl) h ha1 ha3

theorem stuckCs_checkChallengeProgress (s : GameState) (ev : TalkEvent)
    (h : stuckCs s.challenges = true) (hb : ev.nearBench = false)
    (hn : ev.npcName ≠ some "Store Clerk") :
    stuckCs (checkChallengeProgress s ev).challenges = true := by
  cases hA : s.activeId with
  | none => simp only [checkChallengeProgress, hA]; exact h
  | some aid =>
    cases hF : findChallenge s aid with
    | none => simp only [checkChallengeProgress, hA, hF]; exact h
    | some ch =>
      have hchid : ch.id = aid := by
        have := List.find?_some hF
        simpa using this
      have hsplit := h
      unfold stuckCs at hsplit
      simp only [Bool.and_eq_true] at hsplit
      obtain ⟨⟨hids, hc1m⟩, hc3m⟩ := hsplit
      have hids' : s.challenges.map (fun c => c.id) = [1, 2, 3] := eq_of_beq hids
      by_cases ha1 : aid = 1
      · -- the active challenge is "Find Teddy"
        subst ha1
        have hch : s.challenges.find? (fun c => c.id == 1) = some ch := hF
        rw [hch] at hc1m
        have hokc := hc1m
        unfold okC1 at hokc
        simp only [Bool.and_eq_true] at hokc
        obtain ⟨⟨⟨hlen, hg1⟩, hg2⟩, hcomp⟩ := hokc
        have hlen' : ch.steps.length = 3 := by simpa using hlen
        have hg1' : ch.steps.getD 1 false = false := by
          revert hg1; cases ch.steps.getD 1 false <;> simp
        have hg2' : ch.steps.getD 2 false = false := by
          revert hg2; cases ch.steps.getD 2 false <;> simp
        simp only [checkChallengeProgress, hA, hF]
        rw [if_pos hchid]
        split
        · rename_i hB1
          simp only [Bool.and_eq_true] at hB1
          have hg0 : ch.steps.getD 0 false = false := by
            have hx := hB1.2
            revert hx; cases ch.steps.getD 0 false <;> simp
          have hguard : (decide (0 < ch.steps.length) &&
              !(ch.steps.getD 0 false)) = true := by
            rw [hlen', hg0]; decide
          have hgset : ((ch.steps.set 0 true).getD 1 false) = false := by
            rw [getD_set_ne _ _ _ _ (by decide)]; exact hg1'
          have hall : ((ch.steps.set 0 true).all (fun b => b)) = false :=
            all_false_of_getD _ 1 (by rw [List.length_set, hlen']; decide) hgset
          simp only [updateChallengeProgress, hA, hF, hguard, if_true, hall]
          simp only [Bool.false_eq_true, if_false]
          show stuckCs (mapChallengeById s.challenges 1
            (setStepsF (ch.steps.set 0 true))) = true
          refine stuckCs_mapById_1 _ _ (fun c0 => rfl) h ?_
          intro a hFa hok
          have haeq : a = ch := by
            rw [hch] at hFa
            injection hFa with hFa
            exact hFa.symm
          rw [haeq]
          unfold okC1
          simp only [Bool.and_eq_true]
          refine ⟨⟨⟨?_, ?_⟩, ?_⟩, ?_⟩
          · show ((ch.steps.set 0 true).length == 3) = true
            rw [List.length_set, hlen']
            rfl
          · show (!((ch.steps.set 0 true).getD 1 false)) = true
            rw [hgset]
            rfl
          · show (!((ch.steps.set 0 true).getD 2 false)) = true
            rw [getD_set_ne _ _ _ _ (by decide), hg2']
            rfl
          · show (!ch.completed) = true
            exact hcomp
        · split
          · rename_i hB2
            simp only [hb, Bool.false_eq_true, if_false]
            exact h
          · split
            · rename_i hB3
              simp only [Bool.and_eq_true] at hB3
              rw [hg1'] at hB3
              exact absurd hB3.1 (by simp)
            · exact h
      · by_cases ha2 : aid = 2
        · -- the active challenge is "Late for Appointment"
          subst ha2
          have hne1 : s.activeId ≠ some 1 := by rw [hA]; simp
          have hne3 : s.activeId ≠ some 3 := by rw [hA]; simp
          simp only [checkChallengeProgress, hA, hF]
          rw [if_neg (by omega : ¬ ch.id = 1), if_pos hchid]
          split
          · split
            · exact stuckCs_updateChallengeProgress_2 s 0 hA h
            · exact h
          · split
            · exact stuckCs_updateChallengeProgress_2 s 1 hA h
            · split
              · split
                · refine stuckCs_completeChallenge _
                    (stuckCs_updateChallengeProgress_2 s 2 hA h) ?_ ?_ <;>
                    rcases activeId_updateChallengeProgress s 2 with hh | hh <;>
                    simp [hh, hA]
                · exact h
              · exact h
        · by_cases ha3 : aid = 3
          · -- the active challenge is "Christmas Shopping"
            subst ha3
            have hch : s.challenges.find? (fun c => c.id == 3) = some ch := hF
            rw [hch] at hc3m
            have hokc := hc3m
            unfold okC3 at hokc
            simp only [Bool.and_eq_true] at hokc
            obtain ⟨⟨hlen, hg2⟩, hcomp⟩ := hokc
            have hlen' : ch.steps.length = 3 := by simpa using hlen
            have hg2' : ch.steps.getD 2 false = false := by
              revert hg2; cases ch.steps.getD 2 false <;> simp
            have hstep : ∀ i : Nat, i < 3 → i ≠ 2 →
                stuckCs (updateChallengeProgress s i).challenges = true := by
              intro i hi hi2
              cases hgd : ch.steps.getD i false with
              | true =>
                simp only [updateChallengeProgress, hA, hF, hgd]
                simp only [Bool.not_true, Bool.and_false, Bool.false_eq_true,
                  if_false]
                exact h
              | false =>
                have hguard : (decide (i < ch.steps.length) &&
                    !(ch.steps.getD i false)) = true := by
                  rw [hlen', hgd]
                  simp [hi]
                have hgset : ((ch.steps.set i true).getD 2 false) = false := by
                  rw [getD_set_ne _ _ _ _ hi2]; exact hg2'
                have hall : ((ch.steps.set i true).all (fun b => b)) = false :=
                  all_false_of_getD _ 2 (by rw [List.length_set, hlen']; decide)
                    hgset
                simp only [updateChallengeProgress, hA, hF, hguard, if_true, hall]
                simp only [Bool.false_eq_true, if_false]
                show stuckCs (mapChallengeById s.challenges 3
                  (setStepsF (ch.steps.set i true))) = true
                refine stuckCs_mapById_3 _ _ (fun c0 => rfl) h ?_
                intro a hFa hok
                have haeq : a = ch := by
                  rw [hch] at hFa
                  injection hFa with hFa
                  exact hFa.symm
                rw [haeq]
                unfold okC3
                simp only [Bool.and_eq_true]
                refine ⟨⟨?_, ?_⟩, ?_⟩
                · show ((ch.steps.set i true).length == 3) = true
                  rw [List.length_set, hlen']
                  rfl
                · show (!((ch.steps.set i true).getD 2 false)) = true
                  rw [hgset]
                  rfl
                · show (!ch.completed) = true
                  exact hcomp
            simp only [checkChallengeProgress, hA, hF]
            rw [if_neg (by omega : ¬ ch.id = 1), if_neg (by omega : ¬ ch.id = 2),
              if_pos hchid]
            split
            · exact hstep 0 (by decide) (by decide)
            · split
              · split
                · exact hstep 1 (by decide) (by decide)
                · exact h
              · -- the remaining branches are either `s` or guarded by the
                -- impossible Store-Clerk test
                split
                all_goals
                  first
                  | exact h
                  | (rename_i hcl
                     exact absurd hcl hn)
                  | (split
                     all_goals
                       first
                       | exact h
                       | (rename_i hcl
                          exact absurd hcl hn))
          · -- no challenge with this id exists, yet find? returned one
            have hmem := List.mem_of_find?_eq_some hF
            have hin : ch.id ∈ s.challenges.map (fun c => c.id) :=
              List.mem_map_of_mem _ hmem
            rw [hids', hchid] at hin
            simp only [List.mem_cons, List.mem_singleton] at hin
            rcases hin with h' | h' | h'
            · exact absurd h' ha1
            · exact absurd h' ha2
            · exact absurd h' (by simpa using ha3)

theorem sceneHasBenchFlag_false (treePs : List Vec3) :
    sceneHasBenchFlag (sceneObjects treePs) = false := by
  unfold sceneHasBenchFlag sceneObjects
  simp only [List.any_append, Bool.or_eq_false_iff]
  refine ⟨⟨⟨⟨?_, ?_⟩, ?_⟩, ?_⟩, ?_⟩
  · with_unfolding_all decide
  · with_unfolding_all decide
  · with_unfolding_all decide
  · with_unfolding_all decide
  · unfold trees
    induction treePs with
    | nil => rfl
    | cons p t ih => simpa using ih

theorem stuckCs_stepWorldAction (treePs : List Vec3) (s : GameState)
    (a : WorldAction) (h : stuckCs s.challenges = true) :
    stuckCs (stepChallengeAction s (a.toChallengeAction treePs)).challenges
      = true := by
  cases a with
  | start id => exact stuckCs_startChallenge s id h
  | talk e =>
    refine stuckCs_checkChallengeProgress s _ h ?_ ?_
    · show (e.toTalkEvent treePs).nearBench = false
      unfold WorldEvent.toTalkEvent
      simp [sceneHasBenchFlag_false]
    · show (e.toTalkEvent treePs).npcName ≠ some "Store Clerk"
      unfold WorldEvent.toTalkEvent
      cases hnpc : e.npc <;> simp only [NPCId.name?] <;> decide

theorem stuckCs_runWorldActions (treePs : List Vec3) (s : GameState)
    (acts : List WorldAction) (h : stuckCs s.challenges = true) :
    stuckCs (runChallengeActions s
      (acts.map (WorldAction.toChallengeAction treePs))).challenges = true := by
  induction acts generalizing s with
  | nil => exact h
  | cons a t ih => exact ih _ (stuckCs_stepWorldAction treePs s a h)

/-- C10: after any sequence of actions the built game can deliver — challenge
starts and interaction events with the NPCs that actually exist (no "Store
Clerk") and with the scene that is actually built (no object carries an
`isBench` flag) — challenge 1 ("Find Teddy") and challenge 3 ("Christmas
Shopping") still have `completed = false`; the catalog holds exactly the
challenges with ids 1, 2, 3, so only challenge 2 can ever be completed. -/
theorem unreachableChallenges (treePs : List Vec3) (acts : List WorldAction) :
    ((findChallenge (runChallengeActions initGameState
        (acts.map (WorldAction.toChallengeAction treePs))) 1).map
        (fun c => c.completed)) = some false ∧
    ((findChallenge (runChallengeActions initGameState
        (acts.map (WorldAction.toChallengeAction treePs))) 3).map
        (fun c => c.completed)) = some false ∧
    (runChallengeActions initGameState
        (acts.map (WorldAction.toChallengeAction treePs))).challenges.map
        (fun c => c.id) = [1, 2, 3] := by
  have h0 : stuckCs initGameState.challenges = true := by decide
  have h := stuckCs_runWorldActions treePs initGameState acts h0
  unfold stuckCs at h
  simp only [Bool.and_eq_true] at h
  obtain ⟨⟨hids, h1⟩, h3⟩ := h
  refine ⟨?_, ?_, eq_of_beq hids⟩
  · cases hF : (runChallengeActions initGameState
        (acts.map (WorldAction.toChallengeAction treePs))).challenges.find?
        (fun c => c.id == 1) with
    | none => rw [hF] at h1; exact absurd h1 (by simp)
    | some a =>
      rw [hF] at h1
      unfold okC1 at h1
      simp only [Bool.and_eq_true] at h1
      have hcomp : a.completed = false := by
        have hx := h1.2
        revert hx; cases a.completed <;> simp
      have hF' : findChallenge (runChallengeActions initGameState
          (acts.map (WorldAction.toChallengeAction treePs))) 1 = some a := hF
      rw [hF']
      simp [hcomp]
  · cases hF : (runChallengeActions initGameState
        (acts.map (WorldAction.toChallengeAction treePs))).challenges.find?
        (fun c => c.id == 3) with
    | none => rw [hF] at h3; exact absurd h3 (by simp)
    | some a =>
      rw [hF] at h3
      unfold okC3 at h3
      simp only [Bool.and_eq_true] at h3
      have hcomp : a.completed = false := by
        have hx := h3.2
        revert hx; cases a.completed <;> simp
      have hF' : findChallenge (runChallengeActions initGameState
          (acts.map (WorldAction.toChallengeAction treePs))) 3 = some a := hF
      rw [hF']
      simp [hcomp]

/-- C6, counterexample.  Completing all three steps of challenge 2 in order
marks it completed and clears the active reference, but the challenge-specific
reward text is surfaced zero times, not exactly once: `updateChallengeProgress`
clears the active reference before `completeChallenge` runs, so only the fixed
generic completion message appears (once). -/
theorem rewardText_never_surfaced :
    (findChallenge completeC2Run 2).map (fun c => (c.completed, c.steps)) =
      some (true, [true, true, true]) ∧
    completeC2Run.activeId = none ∧
    completeC2Run.dialogLog.countP
      (fun d => d.2 == "You made it to the dentist! Only 30 minutes late...") = 0 ∧
    completeC2Run.dialogLog.countP (fun d => d.2 == wellDoneText) = 1 := by
  decide

/-- C6, as amended: marking a step is idempotent, and when marking step `i`
completes every step of the active challenge, the challenge's `completed` flag
becomes true, the active reference is cleared, and exactly one completion
dialog is surfaced — the fixed generic "Well done!" text, not the challenge's
reward field. -/
theorem stepCompletion_idempotent_completion :
    (∀ (s : GameState) (i : Nat),
      updateChallengeProgress (updateChallengeProgress s i) i =
        updateChallengeProgress s i) ∧
    (∀ (s : GameState) (i aid : Nat) (c : Challenge),
      s.activeId = some aid → findChallenge s aid = some c →
      i < c.steps.length → c.steps.getD i false = false →
      (c.steps.set i true).all (fun b => b) = true →
      (updateChallengeProgress s i).activeId = none ∧
      (findChallenge (updateChallengeProgress s i) aid).map
        (fun c0 => c0.completed) = some true ∧
      (updateChallengeProgress s i).dialogLog =
        s.dialogLog ++ [("Challenge Complete!", wellDoneText)]) := by
  constructor
  · intro s i
    cases hA : s.activeId with
    | none => simp only [updateChallengeProgress, hA]
    | some aid =>
      cases hF : findChallenge s aid with
      | none => simp only [updateChallengeProgress, hA, hF]
      | some c =>
        by_cases hg : (decide (i < c.steps.length) && !(c.steps.getD i false)) = true
        · by_cases hall : ((c.steps.set i true).all (fun b => b)) = true
          · have hres : updateChallengeProgress s i =
                { challenges := mapChallengeById s.challenges aid
                    (completeStepsF (c.steps.set i true)),
                  activeId := none,
                  dialogLog := s.dialogLog ++ [("Challenge Complete!", wellDoneText)] } := by
              simp only [updateChallengeProgress, hA, hF]
              rw [if_pos hg, if_pos hall]
              rfl
            rw [hres]
            simp only [updateChallengeProgress]
          · have hres : updateChallengeProgress s i =
                { s with challenges := mapChallengeById s.challenges aid (setStepsF (c.steps.set i true)) } := by
              simp only [updateChallengeProgress, hA, hF]
              rw [if_pos hg, if_neg hall]
            have hlen : i < c.steps.length := by
              simp only [Bool.and_eq_true, decide_eq_true_eq] at hg
              exact hg.1
            have hFraw : s.challenges.find? (fun c0 => c0.id == aid) = some c := hF
            have hF2 : findChallenge
                { challenges := mapChallengeById s.challenges aid (setStepsF (c.steps.set i true)),
                  activeId := some aid, dialogLog := s.dialogLog } aid =
                some (setStepsF (c.steps.set i true) c) := by
              show (mapChallengeById s.challenges aid _).find? _ = _
              rw [find?_mapChallengeById, if_pos rfl, hFraw, Option.map_some']
              exact fun c0 => rfl
            have hguard2 : (decide (i < (setStepsF (c.steps.set i true) c).steps.length) &&
                !((setStepsF (c.steps.set i true) c).steps.getD i false)) = false := by
              show (decide (i < (c.steps.set i true).length) &&
                !((c.steps.set i true).getD i false)) = false
              rw [getD_set_self _ _ hlen]
              simp
            rw [hres]
            simp only [updateChallengeProgress, hA, hF2, hguard2,
              Bool.false_eq_true, if_false]
        · have hres : updateChallengeProgress s i = s := by
            simp only [updateChallengeProgress, hA, hF]
            rw [if_neg hg]
          rw [hres, hres]
  · intro s i aid c hA hF hi hstep hall
    have hg : (decide (i < c.steps.length) && !(c.steps.getD i false)) = true := by
      rw [hstep]
      simp [hi]
    have hres : updateChallengeProgress s i =
        { challenges := mapChallengeById s.challenges aid
            (completeStepsF (c.steps.set i true)),
          activeId := none,
          dialogLog := s.dialogLog ++ [("Challenge Complete!", wellDoneText)] } := by
      simp only [updateChallengeProgress, hA, hF]
      rw [if_pos hg, if_pos hall]
      rfl
    rw [hres]
    refine ⟨rfl, ?_, rfl⟩
    have hFraw : s.challenges.find? (fun c0 => c0.id == aid) = some c := hF
    show ((mapChallengeById s.challenges aid _).find? _).map _ = _
    rw [find?_mapChallengeById, if_pos rfl, hFraw, Option.map_some']
    · rfl
    · exact fun c0 => rfl

/-- Witness for `stepCompletion_idempotent_completion`: in a state where
challenge 2 is active with steps 0 and 1 done, completing step 2 completes the
challenge, clears the active reference and surfaces the generic dialog. -/
theorem stepCompletion_idempotent_completion_witness :
    (ucpWitnessState.activeId = some 2 ∧
     findChallenge ucpWitnessState 2 = some (setStepsF [true, true, false] challenge2Init) ∧
     2 < (setStepsF [true, true, false] challenge2Init).steps.length ∧
     (setStepsF [true, true, false] challenge2Init).steps.getD 2 false = false ∧
     (((setStepsF [true, true, false] challenge2Init).steps.set 2 true).all
       (fun b => b)) = true) ∧
    ((updateChallengeProgress ucpWitnessState 2).activeId = none ∧
     (findChallenge (updateChallengeProgress ucpWitnessState 2) 2).map
       (fun c0 => c0.completed) = some true ∧
     (updateChallengeProgress ucpWitnessState 2).dialogLog =
       ucpWitnessState.dialogLog ++ [("Challenge Complete!", wellDoneText)]) :=
  ⟨⟨rfl, by decide, by decide, by decide, by decide⟩,
    stepCompletion_idempotent_completion.2 ucpWitnessState 2 2
      (setStepsF [true, true, false] challenge2Init) rfl (by decide) (by decide)
      (by decide) (by decide)⟩

/-! ### Starting challenges (claim C7) -/

/-- C7: starting a found, not-completed challenge B while a different
challenge A is active makes B the active challenge and resets A's step flags
while leaving everything else about A (in particular its `completed` flag)
unchanged; starting a found, completed challenge only surfaces the
already-completed dialog and changes neither the challenge catalog nor the
active reference. -/
theorem singleActiveChallenge :
    (∀ (s : GameState) (id : Nat) (cB : Challenge),
      findChallenge s id = some cB → cB.completed = false →
      (startChallenge s id).activeId = some id ∧
      ∀ aid : Nat, s.activeId = some aid → aid ≠ id →
        findChallenge (startChallenge s id) aid =
          (findChallenge s aid).map resetStepsF) ∧
    (∀ (s : GameState) (id : Nat) (cB : Challenge),
      findChallenge s id = some cB → cB.completed = true →
      (startChallenge s id).challenges = s.challenges ∧
      (startChallenge s id).activeId = s.activeId ∧
      (startChallenge s id).dialogLog =
        s.dialogLog ++ [("Challenge Complete", alreadyCompletedText)]) := by
  constructor
  · intro s id cB hF hc
    constructor
    · cases hA : s.activeId with
      | none =>
        simp only [startChallenge, hF, hc, hA, Bool.false_eq_true, if_false]
        rfl
      | some aid =>
        simp only [startChallenge, hF, hc, hA, Bool.false_eq_true, if_false]
        split
        · rfl
        · rfl
    · intro aid hA hne
      simp only [startChallenge, hF, hc, hA, Bool.false_eq_true, if_false]
      rw [if_neg (fun hEq => hne hEq)]
      show (mapChallengeById s.challenges aid resetStepsF).find? _ = _
      rw [find?_mapChallengeById, if_pos rfl]
      · rfl
      · exact fun c0 => rfl
  · intro s id cB hF hc
    simp only [startChallenge, hF, hc, if_true]
    exact ⟨rfl, rfl, rfl⟩

/-- Witness for `singleActiveChallenge`: starting challenge 2 while challenge 1
is active, and starting an already-completed challenge 2. -/
theorem singleActiveChallenge_witness :
    (findChallenge startWitnessState 2 = some challenge2Init ∧
     challenge2Init.completed = false ∧
     startWitnessState.activeId = some 1 ∧ (1 : Nat) ≠ 2 ∧
     (startChallenge startWitnessState 2).activeId = some 2 ∧
     findChallenge (startChallenge startWitnessState 2) 1 =
       (findChallenge startWitnessState 1).map resetStepsF) ∧
    (findChallenge completedWitnessState 2 = some (completeF challenge2Init) ∧
     (completeF challenge2Init).completed = true ∧
     (startChallenge completedWitnessState 2).challenges =
       completedWitnessState.challenges ∧
     (startChallenge completedWitnessState 2).activeId =
       completedWitnessState.activeId ∧
     (startChallenge completedWitnessState 2).dialogLog =
       completedWitnessState.dialogLog ++
         [("Challenge Complete", alreadyCompletedText)]) := by
  constructor
  · refine ⟨by decide, by decide, rfl, by decide, ?_, ?_⟩
    · exact (singleActiveChallenge.1 startWitnessState 2 challenge2Init
        (by decide) (by decide)).1
    · exact (singleActiveChallenge.1 startWitnessState 2 challenge2Init
        (by decide) (by decide)).2 1 rfl (by decide)
  · have h := singleActiveChallenge.2 completedWitnessState 2
      (completeF challenge2Init) (by decide) (by decide)
    exact ⟨by decide, by decide, h.1, h.2.1, h.2.2⟩

theorem getMrsWicketResponse_ne (m : String) : getMrsWicketResponse m ≠ "" := by
  unfold getMrsWicketResponse
  split_ifs <;> decide

theorem getIrmaResponse_ne (m : String) : getIrmaResponse m ≠ "" := by
  unfold getIrmaResponse
  split_ifs <;> decide

theorem getRupertResponse_ne (m : String) : getRupertResponse m ≠ "" := by
  unfold getRupertResponse
  split_ifs <;> decide

theorem getGenericResponse_ne (m : String) : getGenericResponse m ≠ "" := by
  unfold getGenericResponse
  split_ifs <;> decide

theorem getMrsWicketResponse_table (m : String) :
    getMrsWicketResponse m = respondTable mrsWicketTable mrsWicketFallback m := by
  simp only [getMrsWicketResponse, respondTable, mrsWicketTable, mrsWicketFallback,
    List.any_cons, List.any_nil, Bool.or_false]

theorem getIrmaResponse_table (m : String) :
    getIrmaResponse m = respondTable irmaTable irmaFallback m := by
  simp only [getIrmaResponse, respondTable, irmaTable, irmaFallback,
    List.any_cons, List.any_nil, Bool.or_false]

theorem getRupertResponse_table (m : String) :
    getRupertResponse m = respondTable rupertTable rupertFallback m := by
  simp only [getRupertResponse, respondTable, rupertTable, rupertFallback,
    List.any_cons, List.any_nil, Bool.or_false]

theorem getGenericResponse_table (m : String) :
    getGenericResponse m = respondTable genericTable genericFallback m := by
  simp only [getGenericResponse, respondTable, genericTable, genericFallback,
    List.any_cons, List.any_nil, Bool.or_false]

theorem respondTable_ne (table : List (List String × String)) (fallback m : String)
    (hrows : ∀ p ∈ table, p.2 ≠ "") (hfb : fallback ≠ "") :
    respondTable table fallback m ≠ "" := by
  induction table with
  | nil => exact hfb
  | cons p rest ih =>
    obtain ⟨kws, r⟩ := p
    simp only [respondTable]
    split
    · exact hrows ⟨kws, r⟩ (List.mem_cons_self _ _)
    · exact ih fun q hq => hrows q (List.mem_cons_of_mem _ hq)

/-- C8: for every NPC identity — main-cast flag and name, covering the three
main characters and the generic fallback used for everyone else — and every
input string (empty included), the free-text response is a non-empty string,
and it equals the first-matching-row lookup in that identity\'s ordered
keyword table (with its fallback), applied to the lowercased input. -/
theorem dialogueFallbackTotality :
    (∀ (isMainNPC : Bool) (name message : String),
      handlePlayerMessage isMainNPC name message ≠ "") ∧
    (∀ (isMainNPC : Bool) (name message : String),
      handlePlayerMessage isMainNPC name message =
        respondTable (tableFor isMainNPC name) (fallbackFor isMainNPC name)
          (toLowerStr message)) := by
  constructor
  · intro isMain name message
    simp only [handlePlayerMessage]
    split_ifs
    · exact getMrsWicketResponse_ne _
    · exact getIrmaResponse_ne _
    · exact getRupertResponse_ne _
    · exact getGenericResponse_ne _
    · exact getGenericResponse_ne _
  · intro isMain name message
    simp only [handlePlayerMessage, tableFor, fallbackFor]
    split_ifs
    · exact getMrsWicketResponse_table _
    · exact getIrmaResponse_table _
    · exact getRupertResponse_table _
    · exact getGenericResponse_table _
    · exact getGenericResponse_table _

theorem runFreeze_cons (s : FreezeState) (e : Bool) (evs : List Bool) :
    runFreeze s (e :: evs) = runFreeze (stepFreeze s e) evs := rfl

theorem stepFreeze_empty (w d : Option ℚ) :
    stepFreeze { userDataSpeed := w, directSpeed := d, timers := [] } false =
      { userDataSpeed := w, directSpeed := d, timers := [] } := rfl

theorem stepFreeze_wait_one (u w d : Option ℚ) :
    stepFreeze { userDataSpeed := w, directSpeed := d, timers := [(1, u)] } false =
      { userDataSpeed := u, directSpeed := d, timers := [] } := rfl

theorem stepFreeze_wait_ge (u w d : Option ℚ) (n : Nat) (hn : 2 ≤ n) :
    stepFreeze { userDataSpeed := w, directSpeed := d, timers := [(n, u)] } false =
      { userDataSpeed := w, directSpeed := d, timers := [(n - 1, u)] } := by
  have h1 : (n ≤ 1) = False := by simp; omega
  have h2 : (1 < n) = True := by simp; omega
  simp [stepFreeze, h1, h2]

theorem runFreeze_empty_waits (w d : Option ℚ) (k : Nat) :
    runFreeze { userDataSpeed := w, directSpeed := d, timers := [] }
      (List.replicate k false) =
      { userDataSpeed := w, directSpeed := d, timers := [] } := by
  induction k with
  | zero => rfl
  | succ k ih =>
    rw [List.replicate_succ, runFreeze_cons, stepFreeze_empty, ih]

theorem runFreeze_wait_pending (u w d : Option ℚ) (n k : Nat) (hn : 1 ≤ n) :
    runFreeze { userDataSpeed := w, directSpeed := d, timers := [(n, u)] }
      (List.replicate k false) =
      if k < n then
        { userDataSpeed := w, directSpeed := d, timers := [(n - k, u)] }
      else { userDataSpeed := u, directSpeed := d, timers := [] } := by
  induction k generalizing w n with
  | zero =>
    rw [if_pos (by omega)]
    simp [runFreeze]
  | succ k ih =>
    rw [List.replicate_succ, runFreeze_cons]
    by_cases h1 : n = 1
    · subst h1
      rw [stepFreeze_wait_one, runFreeze_empty_waits, if_neg (by omega)]
    · rw [stepFreeze_wait_ge u w d n (by omega), ih w (n - 1) (by omega)]
      by_cases hk : k + 1 < n
      · rw [if_pos (by omega), if_pos hk, Nat.sub_sub, Nat.add_comm 1 k]
      · rw [if_neg (by omega), if_neg hk]

theorem directSpeed_stepFreeze (s : FreezeState) (e : Bool) :
    (stepFreeze s e).directSpeed = s.directSpeed := by
  simp only [stepFreeze]
  split <;> rfl

theorem directSpeed_runFreeze (s : FreezeState) (evs : List Bool) :
    (runFreeze s evs).directSpeed = s.directSpeed := by
  induction evs generalizing s with
  | nil => rfl
  | cons e t ih => rw [runFreeze_cons, ih, directSpeed_stepFreeze]

/-- C9, counterexample.  A main-cast NPC at speed 0.01 with interactions at
ticks 0 and 10: the second freeze should keep the movement speed at zero
through tick 39 and restore 0.01 at tick 40, but the first timer (never
cancelled) restores 0.01 at tick 30 — mid-freeze — and the second timer,
which captured the already-zero speed, writes 0 back at tick 40, leaving the
NPC frozen forever.  And a background NPC does not freeze at all: the handler
writes the dead `userData.walkSpeed` field while its movement reads the
direct `walkSpeed` property, so mid-dialogue (tick 5, after the interaction
at tick 0) it is still walking at 0.01. -/
theorem interactionFreeze_counterexample :
    moveSpeed true
      (runFreeze (initMainFreeze (1/100)) (List.take 36 overlapEvents)) =
      some (1/100) ∧
    moveSpeed true (runFreeze (initMainFreeze (1/100)) overlapEvents) = some 0 ∧
    (runFreeze (initMainFreeze (1/100)) overlapEvents).timers = [] ∧
    moveSpeed false
      (runFreeze (initBackgroundFreeze (1/100)) (List.take 6 overlapEvents)) =
      some (1/100) := by
  with_unfolding_all decide

/-- C9, as amended: the freeze applies only to the three main-cast NPCs, and
only for an interaction hitting one with no freeze already pending — then its
movement speed is forced to zero for exactly 30 ticks (30000 ms) and restored
to the prior value afterwards.  A background NPC\'s movement speed is never
changed by any interaction sequence at all: the handler\'s `userData` test is
always truthy, so it writes `userData.walkSpeed`, which background movement
ignores.  The claim\'s extension to overlapping interaction sequences is
false even for main-cast NPCs. -/
theorem interactionFreezeRestore :
    (∀ (v : ℚ) (k : Nat), k < 30 →
      moveSpeed true
        (runFreeze (initMainFreeze v) (true :: List.replicate k false)) =
        some 0) ∧
    (∀ (v : ℚ) (k : Nat), 30 ≤ k →
      moveSpeed true
        (runFreeze (initMainFreeze v) (true :: List.replicate k false)) =
        some v ∧
      (runFreeze (initMainFreeze v) (true :: List.replicate k false)).timers = []) ∧
    (∀ (v : ℚ) (evs : List Bool),
      moveSpeed false (runFreeze (initBackgroundFreeze v) evs) = some v) := by
  have hstep : ∀ v : ℚ, stepFreeze (initMainFreeze v) true =
      { userDataSpeed := some 0, directSpeed := none, timers := [(30, some v)] } :=
    fun v => rfl
  refine ⟨?_, ?_, ?_⟩
  · intro v k hk
    rw [runFreeze_cons, hstep,
      runFreeze_wait_pending (some v) (some 0) none 30 k (by omega),
      if_pos (by omega)]
    rfl
  · intro v k hk
    rw [runFreeze_cons, hstep,
      runFreeze_wait_pending (some v) (some 0) none 30 k (by omega),
      if_neg (by omega)]
    exact ⟨rfl, rfl⟩
  · intro v evs
    show (runFreeze (initBackgroundFreeze v) evs).directSpeed = some v
    rw [directSpeed_runFreeze]
    rfl

/-- Witness for `interactionFreezeRestore`: a main-cast NPC at speed 0.01 is
frozen at tick 5 and restored at tick 30. -/
theorem interactionFreezeRestore_witness :
    ((5 : Nat) < 30 ∧
      moveSpeed true
        (runFreeze (initMainFreeze (1/100)) (true :: List.replicate 5 false)) =
        some 0) ∧
    ((30 : Nat) ≤ 30 ∧
      moveSpeed true
        (runFreeze (initMainFreeze (1/100)) (true :: List.replicate 30 false)) =
        some (1/100)) :=
  ⟨⟨by decide, interactionFreezeRestore.1 (1/100) 5 (by decide)⟩,
   ⟨by decide, (interactionFreezeRestore.2.1 (1/100) 30 (by decide)).1⟩⟩

theorem dist2_stepMainNPC_le (cosF sinF : ℚ → ℚ) (atan2F : ℚ → ℚ → ℚ)
    (anchor : ℚ × ℚ) (speed : ℚ) (st : WanderState) (inp : WanderInput)
    (h : dist2 st.pos anchor ≤ 5 ^ 2) :
    dist2 (stepMainNPC cosF sinF atan2F anchor speed st inp).pos anchor ≤ 5 ^ 2 := by
  simp only [stepMainNPC]
  split
  · split
    · rename_i hlt
      exact le_of_lt hlt
    · exact h
  · exact h

theorem stepMainNPC_override (cosF sinF : ℚ → ℚ) (atan2F : ℚ → ℚ → ℚ)
    (anchor : ℚ × ℚ) (speed : ℚ) (st : WanderState) (inp : WanderInput)
    (hnear : inp.near50 = true)
    (hviol : ¬ dist2 (projPos cosF sinF speed inp st) anchor < 5 ^ 2) :
    stepMainNPC cosF sinF atan2F anchor speed st inp =
      { pos := st.pos, dir := atan2F (anchor.2 - st.pos.2) (anchor.1 - st.pos.1) } := by
  simp only [stepMainNPC, hnear]
  rw [if_pos trivial, if_neg hviol]

/-- C4: starting within the wander radius of the anchor (main NPCs start at
their anchor), a main NPC\'s distance to its anchor never exceeds the maximum
wander radius 5, over every tick sequence and for arbitrary trigonometric
oracles, speeds, perturbations and culling gates; and whenever the projected
step would reach or pass the radius, the position is left unchanged for that
tick and the heading is overwritten with the atan2 bearing from the current
position back to the anchor. -/
theorem wanderRadiusInvariant (cosF sinF : ℚ → ℚ) (atan2F : ℚ → ℚ → ℚ)
    (anchor : ℚ × ℚ) (speed : ℚ) (st0 : WanderState) (inputs : List WanderInput)
    (h0 : dist2 st0.pos anchor ≤ 5 ^ 2) :
    dist2 (runMainNPC cosF sinF atan2F anchor speed st0 inputs).pos anchor ≤ 5 ^ 2 ∧
    ∀ (st : WanderState) (inp : WanderInput), inp.near50 = true →
      ¬ dist2 (projPos cosF sinF speed inp st) anchor < 5 ^ 2 →
      (stepMainNPC cosF sinF atan2F anchor speed st inp).pos = st.pos ∧
      (stepMainNPC cosF sinF atan2F anchor speed st inp).dir =
        atan2F (anchor.2 - st.pos.2) (anchor.1 - st.pos.1) := by
  constructor
  · induction inputs generalizing st0 with
    | nil => exact h0
    | cons inp rest ih =>
      exact ih _ (dist2_stepMainNPC_le cosF sinF atan2F anchor speed st0 inp h0)
  · intro st inp hnear hviol
    rw [stepMainNPC_override cosF sinF atan2F anchor speed st inp hnear hviol]
    exact ⟨rfl, rfl⟩

/-- Witness for `wanderRadiusInvariant`: an NPC at its anchor, one in-range
tick with unit-cosine oracle and speed 0.01 stays within radius 5. -/
theorem wanderRadiusInvariant_witness :
    dist2 ((⟨(0, 0), 0⟩ : WanderState)).pos (0, 0) ≤ 5 ^ 2 ∧
    dist2 (runMainNPC (fun _ => 1) (fun _ => 0) (fun _ _ => 0) (0, 0) (1/100)
      ⟨(0, 0), 0⟩ [⟨true, none⟩]).pos (0, 0) ≤ 5 ^ 2 :=
  ⟨by with_unfolding_all decide,
   (wanderRadiusInvariant (fun _ => 1) (fun _ => 0) (fun _ _ => 0) (0, 0) (1/100)
      ⟨(0, 0), 0⟩ [⟨true, none⟩] (by with_unfolding_all decide)).1⟩

end BeanGame
